import Mathlib

/-!
# cryptoReact: the fetch-and-derive pipeline

A shallow embedding of the data layer of the dashboard:

* `src/App.js`: the hook `useCryptoData` (its effect, `fetchData`, `refetch`),
  the `coinData` derivation and the top-level branch of `App`'s render;
* `src/components/ChartSection.js`: the hook `useChartData`
  (its effect and `fetchChartData`) and the time-range buttons;
* `src/components/Header.js`, `src/components/CardSection.js`: the controls of
  the header, `formatNumber` and the current-price element;
* `src/utils/formatters.js`: `formatLargeNumber`.

JavaScript values are a first-order datatype.  A number is represented by its
mathematical value (a rational, or one of the three non-finite values), so the
sign of zero is not represented; the code embedded here never does arithmetic
on payload numbers, it only tests them for truthiness and passes them on.

A thrown error is represented by its `message`, the only part of it the code
reads (`err.message`).  The network is a parameter `net`, giving for each URL
how `fetch` settles, and `new Date()` is a parameter `now`.

`Math.log10`, division and `toFixed` are computed on the exact value of the
number.  `toLocaleString` formats the decimal denoted by the number's shortest
round-trip text; that conversion is a parameter `shortest`.

A fetch function suspends at `await`: besides the whole function, each hook
has its requested phase (up to the network call) and its settled phase (from
the moment the call settles), so that fetches of one hook can overlap.
-/

namespace CryptoReact

/-! ## JavaScript values -/

/-- A JavaScript number: a finite value, `Infinity`, `-Infinity` or `NaN`. -/
inductive JSNum where
  | fin (q : ℚ)
  | posInf
  | negInf
  | nan
  deriving DecidableEq

/-- A JavaScript value as it can occur in a decoded response body or in a
piece of hook state.  An object is the list of its own properties. -/
inductive JSValue where
  | undefined
  | null
  | bool (b : Bool)
  | num (n : JSNum)
  | str (s : String)
  | arr (items : List JSValue)
  | obj (props : List (String × JSValue))

namespace JSValue

/-- The number literal `0`. -/
def zero : JSValue := num (JSNum.fin 0)

/-- The number with the finite value `q`. -/
def ofRat (q : ℚ) : JSValue := num (JSNum.fin q)

/-- The result of `ToBoolean`: the falsy values are `undefined`, `null`, `false`, zero,
`NaN` and the empty string; everything else (every object and array) is
truthy. -/
def truthy : JSValue → Bool
  | undefined => false
  | null => false
  | bool b => b
  | num (JSNum.fin q) => decide (q ≠ 0)
  | num JSNum.nan => false
  | num _ => true
  | str s => decide (s ≠ "")
  | arr _ => true
  | obj _ => true

/-- The values on which a property read throws: `null` and `undefined`. -/
def isNullish : JSValue → Bool
  | undefined => true
  | null => true
  | _ => false

/-- The expression `a || b`. -/
def or (a b : JSValue) : JSValue := if a.truthy then a else b

/-- Own-property lookup in a property list; an absent key reads as
`undefined`. -/
def lookup : List (String × JSValue) → String → JSValue
  | [], _ => undefined
  | (k, v) :: rest, key => if k = key then v else lookup rest key

/-- The value of `v.key` for a `v` that is not nullish.  An object gives its
own property.  A primitive or an array only has index, `length` and prototype
members, and no key read by this program is one of those, so the read gives
`undefined`. -/
def propOf : JSValue → String → JSValue
  | obj props, key => lookup props key
  | _, _ => undefined

/-- The member access `v.key`: a `TypeError` on `null` and `undefined`. -/
def getProp (v : JSValue) (key : String) : Except String JSValue :=
  if v.isNullish then
    throw ("TypeError: Cannot read properties of " ++
      (match v with | null => "null" | _ => "undefined") ++ " (reading " ++ key ++ ")")
  else
    pure (v.propOf key)

/-- The optional chain `v?.key`: `undefined` on `null` and `undefined`. -/
def optProp (v : JSValue) (key : String) : Except String JSValue :=
  if v.isNullish then pure undefined else v.getProp key

end JSValue

open JSValue

/-! ## The derivation (`coinData` in `App`) -/

/-- The body of the `useMemo` callback that computes `coinData` from the
hook's `data`. -/
def coinData (data : JSValue) : Except String JSValue := do
  let marketData := (← data.getProp "market_data").or (obj [])
  let communityData := (← data.getProp "community_data").or (obj [])
  pure (obj [
    ("name", (← data.getProp "name").or (str "")),
    ("currentPrice",
      (← (← marketData.getProp "current_price").optProp "usd").or zero),
    ("marketCapChange24h",
      (← marketData.getProp "market_cap_change_percentage_24h").or zero),
    ("allTimeHigh", (← (← marketData.getProp "ath").optProp "usd").or zero),
    ("allTimeLow", (← (← marketData.getProp "atl").optProp "usd").or zero),
    ("sentiment", (← data.getProp "sentiment_votes_up_percentage").or zero),
    ("high24h", (← (← marketData.getProp "high_24h").optProp "usd").or zero),
    ("low24h", (← (← marketData.getProp "low_24h").optProp "usd").or zero),
    ("priceChange24h",
      (← (← marketData.getProp "price_change_24h_in_currency").optProp "usd").or zero),
    ("marketCap", (← (← marketData.getProp "market_cap").optProp "usd").or zero),
    ("totalVolume", (← (← marketData.getProp "total_volume").optProp "usd").or zero),
    ("circulatingSupply", (← marketData.getProp "circulating_supply").or zero),
    ("twitterFollowers", (← communityData.getProp "twitter_followers").or zero)])

/-! ### The field table of the specification -/

/-- The value found by following `path` from `v`; `undefined` as soon as a
segment is read from `null` or `undefined`, or is absent. -/
def valueAt : JSValue → List String → JSValue
  | v, [] => v
  | v, key :: rest => if v.isNullish then undefined else valueAt (v.propOf key) rest

/-- The field mapping as the specification gives it: output field, path in
the payload, default. -/
def fieldTable : List (String × List String × JSValue) :=
  [("name", ["name"], str ""),
   ("currentPrice", ["market_data", "current_price", "usd"], zero),
   ("marketCapChange24h", ["market_data", "market_cap_change_percentage_24h"], zero),
   ("allTimeHigh", ["market_data", "ath", "usd"], zero),
   ("allTimeLow", ["market_data", "atl", "usd"], zero),
   ("sentiment", ["sentiment_votes_up_percentage"], zero),
   ("high24h", ["market_data", "high_24h", "usd"], zero),
   ("low24h", ["market_data", "low_24h", "usd"], zero),
   ("priceChange24h", ["market_data", "price_change_24h_in_currency", "usd"], zero),
   ("marketCap", ["market_data", "market_cap", "usd"], zero),
   ("totalVolume", ["market_data", "total_volume", "usd"], zero),
   ("circulatingSupply", ["market_data", "circulating_supply"], zero),
   ("twitterFollowers", ["community_data", "twitter_followers"], zero)]

/-- The record the specification describes: every field of the table holds
the value at its path, or the default when that value is falsy. -/
def specRecord (data : JSValue) : JSValue :=
  obj (fieldTable.map fun row => (row.1, (valueAt data row.2.1).or row.2.2))

/-- The output keys of the derivation, in the order the code writes them. -/
def outputKeys : List String :=
  ["name", "currentPrice", "marketCapChange24h", "allTimeHigh", "allTimeLow", "sentiment",
   "high24h", "low24h", "priceChange24h", "marketCap", "totalVolume", "circulatingSupply",
   "twitterFollowers"]

/-- Some segment of `path` is missing, `null` or `undefined` in `data`: the
value reached after one of the first `1, ..., path.length` segments is
nullish. -/
def segmentMissing (data : JSValue) (path : List String) : Bool :=
  (List.range path.length).any fun i => (valueAt data (path.take (i + 1))).isNullish

/-- The value `v` has the type of the field whose default is `dflt`: a number
other than `NaN` for a numeric field, a string for the name. -/
def fieldTyped : JSValue → JSValue → Bool
  | num _, num n => decide (n ≠ JSNum.nan)
  | str _, str _ => true
  | _, _ => false

/-- The payload of the worked example:
`{ name: "Ethereum", market_data: { current_price: { usd: 2000 }, ath: { usd: 4800 },
atl: { usd: 0.42 } }, sentiment_votes_up_percentage: 75 }`. -/
def examplePayload : JSValue :=
  obj [("name", str "Ethereum"),
       ("market_data", obj [("current_price", obj [("usd", ofRat 2000)]),
                            ("ath", obj [("usd", ofRat 4800)]),
                            ("atl", obj [("usd", ofRat 0.42)])]),
       ("sentiment_votes_up_percentage", ofRat 75)]

/-- The record the worked example expects, its properties in the order the
specification lists them. -/
def exampleView : List (String × JSValue) :=
  [("name", str "Ethereum"), ("currentPrice", ofRat 2000), ("allTimeHigh", ofRat 4800),
   ("allTimeLow", ofRat 0.42), ("sentiment", ofRat 75), ("marketCapChange24h", zero),
   ("high24h", zero), ("low24h", zero), ("priceChange24h", zero), ("marketCap", zero),
   ("totalVolume", zero), ("circulatingSupply", zero), ("twitterFollowers", zero)]

/-! ## The network and the hook runtime -/

/-- A settled `Response`: its status line and what `response.json()` does, a
decoded value or a rejection with the given error message. -/
structure Response where
  status : Nat
  statusText : String
  body : Except String JSValue

/-- The getter `response.ok`: the status is in the range 200..299. -/
def Response.ok (r : Response) : Bool := decide (200 ≤ r.status ∧ r.status ≤ 299)

/-- What `await fetch(url)` does: it resolves with a response, or rejects with
an `Error` carrying the given message. -/
inductive FetchResult where
  | resolved (response : Response)
  | rejected (message : String)

/-- The world a hook's asynchronous function runs in: the hook's state and
the URLs of the requests issued so far, oldest first. -/
structure Run (σ : Type) where
  hook : σ
  sent : List String

/-- An asynchronous function body: it may throw (the thrown error is
represented by its `message`), and state updates made before a throw
persist. -/
abbrev Async (σ : Type) := ExceptT String (StateM (Run σ))

/-- Run an asynchronous function to completion from the world `w`: the value
or the uncaught error, and the world it leaves. -/
def Async.exec {σ α : Type} (x : Async σ α) (w : Run σ) : Except String α × Run σ :=
  (ExceptT.run x).run w

/-- The network call `await fetch(url)` against the network `net`: the request
is recorded as issued, then the call resolves or throws. -/
def fetch {σ : Type} (net : String → FetchResult) (url : String) : Async σ Response := do
  modify fun w => { w with sent := w.sent ++ [url] }
  match net url with
  | FetchResult.resolved response => pure response
  | FetchResult.rejected message => throw message

/-- The body decode `await response.json()`. -/
def Response.json {σ : Type} (r : Response) : Async σ JSValue :=
  match r.body with
  | Except.ok value => pure value
  | Except.error message => throw message

/-- The test `!coinId` on an identifier that is a string or `undefined`. -/
def notId : Option String → Bool
  | none => true
  | some s => decide (s = "")

/-- The test `!timeRange` on a range that is a number of days or `undefined`. -/
def notRange : Option Nat → Bool
  | none => true
  | some n => decide (n = 0)

/-- The text of `${coinId}` in a template literal. -/
def idText : Option String → String
  | none => "undefined"
  | some s => s

/-- The text of `${timeRange}` in a template literal. -/
def rangeText : Option Nat → String
  | none => "undefined"
  | some n => toString n

/-! ## `useCryptoData` (`App.js`) -/

/-- The four pieces of state of `useCryptoData`; `error` and `lastUpdated` are
`null` (`none`) or a message / a time in epoch milliseconds. -/
structure CryptoState where
  data : JSValue
  loading : Bool
  error : Option String
  lastUpdated : Option Nat

namespace useCryptoData

/-- The initial values given to the four `useState` calls. -/
def initial : CryptoState :=
  { data := obj [], loading := false, error := none, lastUpdated := none }

def setData (v : JSValue) : Async CryptoState Unit :=
  modify fun w => { w with hook := { w.hook with data := v } }

def setLoading (b : Bool) : Async CryptoState Unit :=
  modify fun w => { w with hook := { w.hook with loading := b } }

def setError (e : Option String) : Async CryptoState Unit :=
  modify fun w => { w with hook := { w.hook with error := e } }

def setLastUpdated (t : Option Nat) : Async CryptoState Unit :=
  modify fun w => { w with hook := { w.hook with lastUpdated := t } }

/-- The URL of the asset-detail request. -/
def url (coinId : Option String) : String :=
  "https://api.coingecko.com/api/v3/coins/" ++ idText coinId

/-- The function `fetchData` of the effect; `now` is the value of `new Date()`
when the decoded body arrives. -/
def fetchData (coinId : Option String) (net : String → FetchResult) (now : Nat) :
    Async CryptoState Unit := do
  setLoading true
  setError none
  try
    let response ← fetch net (url coinId)
    if !response.ok then
      throw ("HTTP error! status: " ++ toString response.status)
    let jsonData ← response.json
    setData jsonData
    setLastUpdated (some now)
  catch err =>
    setError (some err)
  finally
    setLoading false

/-- The effect of the hook, run on mount and whenever `coinId` or
`refreshTrigger` changes. -/
def effect (coinId : Option String) (net : String → FetchResult) (now : Nat) :
    Async CryptoState Unit := do
  if notId coinId then return
  fetchData coinId net now

/-- The callback `refetch` returned by the hook. -/
def refetch (coinId : Option String) (net : String → FetchResult) :
    Async CryptoState Unit := do
  if notId coinId then return
  setLoading true
  setError none
  try
    let response ← fetch net (url coinId)
    if !response.ok then
      throw ("HTTP error! status: " ++ toString response.status)
    let jsonData ← response.json
    setData jsonData
  catch err =>
    setError (some err)
  finally
    setLoading false

end useCryptoData

/-! ## `useChartData` (`ChartSection.js`) -/

/-- The three pieces of state of `useChartData`. -/
structure ChartState where
  chartData : JSValue
  loading : Bool
  error : Option String

namespace useChartData

/-- The initial values given to the three `useState` calls. -/
def initial : ChartState :=
  { chartData := obj [("prices", arr []), ("market_caps", arr []), ("total_volumes", arr [])],
    loading := false, error := none }

def setChartData (v : JSValue) : Async ChartState Unit :=
  modify fun w => { w with hook := { w.hook with chartData := v } }

def setLoading (b : Bool) : Async ChartState Unit :=
  modify fun w => { w with hook := { w.hook with loading := b } }

def setError (e : Option String) : Async ChartState Unit :=
  modify fun w => { w with hook := { w.hook with error := e } }

/-- The URL of the chart request. -/
def url (coinId : Option String) (timeRange : Option Nat) : String :=
  "https://api.coingecko.com/api/v3/coins/" ++ idText coinId ++
    "/market_chart?vs_currency=usd&days=" ++ rangeText timeRange

/-- The function `fetchChartData` of the effect. -/
def fetchChartData (coinId : Option String) (timeRange : Option Nat)
    (net : String → FetchResult) : Async ChartState Unit := do
  setLoading true
  setError none
  try
    let response ← fetch net (url coinId timeRange)
    if !response.ok then
      throw ("HTTP error! status: " ++ toString response.status)
    let data ← response.json
    setChartData data
  catch err =>
    setError (some err)
  finally
    setLoading false

/-- The effect of the hook, run on mount and whenever `coinId` or `timeRange`
changes. -/
def effect (coinId : Option String) (timeRange : Option Nat) (net : String → FetchResult) :
    Async ChartState Unit := do
  if notId coinId || notRange timeRange then return
  fetchChartData coinId timeRange net

end useChartData

/-! ## The fetch as two phases, and sequences of fetches -/

namespace useCryptoData

/-- The part of `fetchData` that runs when the fetch is requested, before the
function suspends at `await fetch(...)`: the two state updates and the
request. -/
def fetchData.requested (coinId : Option String) : Async CryptoState Unit := do
  setLoading true
  setError none
  modify fun w => { w with sent := w.sent ++ [url coinId] }

/-- The part of `fetchData` that runs once the network call has settled with
`result`. -/
def fetchData.settled (result : FetchResult) (now : Nat) : Async CryptoState Unit := do
  try
    let response ← (match result with
      | FetchResult.resolved response => pure response
      | FetchResult.rejected message => throw message : Async CryptoState Response)
    if !response.ok then
      throw ("HTTP error! status: " ++ toString response.status)
    let jsonData ← response.json
    setData jsonData
    setLastUpdated (some now)
  catch err =>
    setError (some err)
  finally
    setLoading false

end useCryptoData

namespace useChartData

/-- The part of `fetchChartData` that runs when the fetch is requested, before
the function suspends at `await fetch(...)`: the two state updates and the
request. -/
def fetchChartData.requested (coinId : Option String) (timeRange : Option Nat) :
    Async ChartState Unit := do
  setLoading true
  setError none
  modify fun w => { w with sent := w.sent ++ [url coinId timeRange] }

/-- The part of `fetchChartData` that runs once the network call has settled
with `result`. -/
def fetchChartData.settled (result : FetchResult) : Async ChartState Unit := do
  try
    let response ← (match result with
      | FetchResult.resolved response => pure response
      | FetchResult.rejected message => throw message : Async ChartState Response)
    if !response.ok then
      throw ("HTTP error! status: " ++ toString response.status)
    let data ← response.json
    setChartData data
  catch err =>
    setError (some err)
  finally
    setLoading false

end useChartData

/-- What happens to the hook `useCryptoData` over time: a fetch is requested
by the effect, or an outstanding network call settles at time `now`.  Events
of overlapping fetches may interleave in any order. -/
inductive FetchEvent where
  | requested (coinId : Option String)
  | settled (result : FetchResult) (now : Nat)

/-- The hook state after one event. -/
def onEvent (s : CryptoState) : FetchEvent → CryptoState
  | FetchEvent.requested coinId =>
      ((useCryptoData.fetchData.requested coinId).exec ⟨s, []⟩).2.hook
  | FetchEvent.settled result now =>
      ((useCryptoData.fetchData.settled result now).exec ⟨s, []⟩).2.hook

/-- The hook state after a sequence of events, from the initial state. -/
def afterEvents (events : List FetchEvent) : CryptoState :=
  events.foldl onEvent useCryptoData.initial

/-- A network call succeeds when it resolves with an ok response whose body
decodes. -/
def FetchResult.succeeds : FetchResult → Bool
  | FetchResult.resolved r => r.ok && (match r.body with | Except.ok _ => true | _ => false)
  | FetchResult.rejected _ => false

/-- The completion time of an event that is a successful settlement. -/
def successTime : FetchEvent → Option Nat
  | FetchEvent.settled result now => if result.succeeds then some now else none
  | FetchEvent.requested _ => none

/-- The time of the most recent successful fetch of a sequence, `none` if
there was none. -/
def lastSuccess (events : List FetchEvent) : Option Nat :=
  (events.filterMap successTime).getLast?

/-! ## The top-level render of `App` -/

/-- The props that reach `Header`, `CardSection` and `ChartSection`, and the
chart hook's values that `ChartSection` reads (`chartData` and `loading`). -/
structure Dashboard where
  selectedCoin : String
  loading : Bool
  lastUpdated : Option Nat
  coinData : JSValue
  chartLoading : Bool
  chartData : JSValue

/-- What `App` returns: the alert `<h4>heading</h4><p>message</p>`, or the
dashboard. -/
inductive View where
  | alert (heading : String) (message : String)
  | dashboard (d : Dashboard)

/-- The test `if (error)` on the hook's `error`: `null` and the empty string
are falsy. -/
def errorTruthy : Option String → Bool
  | none => false
  | some m => decide (m ≠ "")

/-- The render of `App` for the selected coin, the state of `useCryptoData`
and the state of the `useChartData` inside `ChartSection`. -/
def App.render (selectedCoinId : String) (asset : CryptoState) (chart : ChartState) :
    Except String View := do
  let coin ← coinData asset.data
  if errorTruthy asset.error then
    pure (View.alert "Error loading data" (asset.error.getD ""))
  else
    pure (View.dashboard
      { selectedCoin := selectedCoinId, loading := asset.loading,
        lastUpdated := asset.lastUpdated, coinData := coin,
        chartLoading := asset.loading || chart.loading, chartData := chart.chartData })

/-! ## Outcomes of a fetch -/

/-- What the `try` block of a fetch function comes to, by the way the network
call settles: the decoded body, for an ok response whose body decodes (the
Success of the specification); otherwise the message of the error thrown (its
Failed): the text built from the status for a response that is not ok, the
rejection's message, or the decode error's message. -/
def FetchResult.outcome : FetchResult → Except String JSValue
  | FetchResult.rejected message => Except.error message
  | FetchResult.resolved r =>
      if r.ok then r.body else Except.error ("HTTP error! status: " ++ toString r.status)

/-! ## Concrete networks used in the examples -/

/-- A network that answers every request with `404 Not Found`. -/
def notFoundNet : String → FetchResult :=
  fun _ => FetchResult.resolved
    { status := 404, statusText := "Not Found", body := Except.error "Unexpected end of JSON input" }

/-- A network that answers every request with `200 OK` and the example
payload. -/
def exampleNet : String → FetchResult :=
  fun _ => FetchResult.resolved
    { status := 200, statusText := "OK", body := Except.ok examplePayload }

/-- A network on which every request is rejected with the given message. -/
def rejectingNet (message : String) : String → FetchResult :=
  fun _ => FetchResult.rejected message

/-! ## The component tree: controls, state, handlers and effect scheduling -/

/-- The list `TIME_RANGES` of `ChartSection.js`: label and days. -/
def TIME_RANGES : List (String × Nat) :=
  [("1D", 1), ("1W", 7), ("1M", 30), ("6M", 182), ("1Y", 365)]

/-- The constant `DEFAULT_COIN` of `App.js`. -/
def DEFAULT_COIN : String := "bitcoin"

/-- The interactive elements the components render: the `select` and the
refresh `button` of `Header`, and one `TimeRangeButton` per range in
`ChartSection`. -/
inductive Control where
  | coinSelect
  | refreshButton
  | timeRangeButton (days : Nat)
  deriving DecidableEq

/-- The interactive elements of a view, each with its `disabled` attribute.
The alert is only `<h4>` and `<p>`; the dashboard has the two controls of
`Header` (disabled while `loading`) and the range buttons of `ChartSection`
(disabled while `isLoading`). -/
def View.controls : View → List (Control × Bool)
  | View.alert _ _ => []
  | View.dashboard d =>
      [(Control.coinSelect, d.loading), (Control.refreshButton, d.loading)] ++
        TIME_RANGES.map fun range => (Control.timeRangeButton range.2, d.chartLoading)

/-- The state of the mounted tree: the three `useState` values of `App` and
`ChartSection` that feed the hooks, and the two hooks with the requests each
has issued.  The chart part is meaningful while `ChartSection` is rendered. -/
structure Page where
  selectedCoinId : String
  manualRefreshTrigger : Nat
  selectedTimeRange : Nat
  asset : Run CryptoState
  chart : Run ChartState

/-- What the page displays. -/
def Page.view (p : Page) : Except String View :=
  App.render p.selectedCoinId p.asset.hook p.chart.hook

/-- The page displays the dashboard (so `ChartSection` is mounted). -/
def Page.showsDashboard (p : Page) : Bool :=
  match p.view with
  | Except.ok (View.dashboard _) => true
  | _ => false

/-- The handler `handleCoinChange` of `App`: `setSelectedCoinId(newCoinId)`. -/
def handleCoinChange (newCoinId : String) (p : Page) : Page :=
  { p with selectedCoinId := newCoinId }

/-- The handler `handleManualRefresh` of `App`:
`setManualRefreshTrigger(prev => prev + 1)`. -/
def handleManualRefresh (p : Page) : Page :=
  { p with manualRefreshTrigger := p.manualRefreshTrigger + 1 }

/-- The handler `handleTimeRangeChange` of `ChartSection`:
`setSelectedTimeRange(days)`. -/
def handleTimeRangeChange (days : Nat) (p : Page) : Page :=
  { p with selectedTimeRange := days }

/-- The effects React runs after the render that follows a state update from
`prev` to `next`: an effect runs when one of its dependencies differs from
the previous render.  The dependencies are `[coinId, timeRange]` for
`useChartData` and `[coinId, refreshTrigger]` for `useCryptoData`; the effect
of the child `ChartSection` runs first, and only if `App` rendered it.  A
render that throws commits nothing. -/
def runEffects (prev next : Page) (net : String → FetchResult) (now : Nat) : Page :=
  match next.view with
  | Except.error _ => next
  | Except.ok view =>
    let chart :=
      match view with
      | View.dashboard _ =>
        if prev.selectedCoinId ≠ next.selectedCoinId ∨
            prev.selectedTimeRange ≠ next.selectedTimeRange then
          ((useChartData.effect (some next.selectedCoinId) (some next.selectedTimeRange)
            net).exec next.chart).2
        else next.chart
      | View.alert _ _ => next.chart
    let asset :=
      if prev.selectedCoinId ≠ next.selectedCoinId ∨
          prev.manualRefreshTrigger ≠ next.manualRefreshTrigger then
        ((useCryptoData.effect (some next.selectedCoinId) net now).exec next.asset).2
      else next.asset
    { next with asset := asset, chart := chart }

/-- What a user can do to the page. -/
inductive UserEvent where
  | selectCoin (newCoinId : String)
  | clickRefresh
  | clickRange (days : Nat)

/-- The control a user event acts on. -/
def UserEvent.control : UserEvent → Control
  | UserEvent.selectCoin _ => Control.coinSelect
  | UserEvent.clickRefresh => Control.refreshButton
  | UserEvent.clickRange days => Control.timeRangeButton days

/-- The state update a user event causes through its handler. -/
def UserEvent.update : UserEvent → Page → Page
  | UserEvent.selectCoin newCoinId => handleCoinChange newCoinId
  | UserEvent.clickRefresh => handleManualRefresh
  | UserEvent.clickRange days => handleTimeRangeChange days

/-- The page offers the control `c`: the displayed view renders it and it is
not disabled. -/
def Page.offers (p : Page) (c : Control) : Bool :=
  match p.view with
  | Except.ok view => view.controls.contains (c, false)
  | Except.error _ => false

/-- The page after a user event: the handler and the effects it triggers run
when the page offers the event's control; otherwise nothing happens. -/
def Page.click (p : Page) (ev : UserEvent) (net : String → FetchResult) (now : Nat) : Page :=
  if p.offers ev.control then runEffects p (ev.update p) net now else p

/-- The page in which the asset fetch for `bitcoin` has just failed with
status 404. -/
def failedPage : Page :=
  { selectedCoinId := DEFAULT_COIN, manualRefreshTrigger := 0, selectedTimeRange := 365,
    asset := ((useCryptoData.effect (some DEFAULT_COIN) notFoundNet 1).exec
      ⟨useCryptoData.initial, []⟩).2,
    chart := ⟨useChartData.initial, []⟩ }

/-- A chart payload with one price point. -/
def exampleChart : JSValue :=
  obj [("prices", arr [arr [ofRat 1700000000000, ofRat 2000]]),
       ("market_caps", arr [arr [ofRat 1700000000000, ofRat 240000000000]]),
       ("total_volumes", arr [arr [ofRat 1700000000000, ofRat 9000000000]])]

/-- A network that answers the asset-detail request for `bitcoin` with the
example payload and every other request with the example chart. -/
def marketNet : String → FetchResult :=
  fun url =>
    if url = "https://api.coingecko.com/api/v3/coins/bitcoin" then
      FetchResult.resolved { status := 200, statusText := "OK", body := Except.ok examplePayload }
    else
      FetchResult.resolved { status := 200, statusText := "OK", body := Except.ok exampleChart }

/-- The page in which the asset and chart fetches for `bitcoin` have just
succeeded. -/
def loadedPage : Page :=
  { selectedCoinId := DEFAULT_COIN, manualRefreshTrigger := 0, selectedTimeRange := 365,
    asset := ((useCryptoData.effect (some DEFAULT_COIN) marketNet 1).exec
      ⟨useCryptoData.initial, []⟩).2,
    chart := ((useChartData.effect (some DEFAULT_COIN) (some 365) marketNet).exec
      ⟨useChartData.initial, []⟩).2 }

/-- The chart hook after two overlapping fetches, as when the coin is changed
while the first chart request is still in flight: a fetch for `bitcoin` is
requested, then one for `ethereum`; the first is rejected with `"boom"`, then
the second is answered `200 OK` with the example chart. -/
def overlappedChart : ChartState :=
  let w0 : Run ChartState := ⟨useChartData.initial, []⟩
  let w1 := ((useChartData.fetchChartData.requested (some "bitcoin") (some 365)).exec w0).2
  let w2 := ((useChartData.fetchChartData.requested (some "ethereum") (some 365)).exec w1).2
  let w3 := ((useChartData.fetchChartData.settled (FetchResult.rejected "boom")).exec w2).2
  ((useChartData.fetchChartData.settled
    (FetchResult.resolved { status := 200, statusText := "OK", body := Except.ok exampleChart })
    ).exec w3).2.hook

/-! ## Number formatting -/

/-- The decimal digit for `n % 10`. -/
def digitChar (n : Nat) : Char := Char.ofNat (48 + n % 10)

/-- The last `count` decimal digits of `n`, padded with zeros on the left. -/
def lastDigits (n : Nat) : Nat → List Char
  | 0 => []
  | count + 1 => lastDigits (n / 10) count ++ [digitChar n]

/-- Commas between groups of three digits, on the digits taken from the least
significant one. -/
def groupReversed : List Char → List Char
  | a :: b :: c :: rest =>
      match rest with
      | [] => [a, b, c]
      | _ :: _ => a :: b :: c :: ',' :: groupReversed rest
  | short => short

/-- The decimal digits of `n` from the least significant one, looking at most
`fuel` digits; `n + 1` is always enough fuel. -/
def decimalRev : Nat → Nat → List Char
  | 0, _ => []
  | fuel + 1, n => if n < 10 then [digitChar n] else digitChar n :: decimalRev fuel (n / 10)

/-- The integer `n` in en-US notation: decimal digits with a comma between
groups of three. -/
def groupThousands (n : Nat) : String :=
  String.mk (groupReversed (decimalRev (n + 1) n)).reverse

/-- The magnitude of `q` in units of `10^(-digits)`, rounded to the nearest
integer, a tie going to the larger one. -/
def roundScaled (q : ℚ) (digits : Nat) : Nat :=
  ⌊|q| * 10 ^ digits + 1 / 2⌋.toNat

/-- The text of `x.toLocaleString('en-US', { minimumFractionDigits: digits,
maximumFractionDigits: digits })`.  The built-in formats the decimal that the
shortest round-trip text of the number denotes (the digits `x.toString()`
prints), not the exact binary value: `shortest` is that conversion, applied
to the exact value of the number, so for the double nearest to 1.005 it gives
1.005, which is then printed `1.01`.
That decimal is rounded half away from zero to `digits` fraction digits and
its integer part is grouped by thousands. -/
def toLocaleString (shortest : ℚ → ℚ) (x : JSNum) (digits : Nat) : String :=
  match x with
  | JSNum.nan => "NaN"
  | JSNum.posInf => "∞"
  | JSNum.negInf => "-∞"
  | JSNum.fin q =>
      let body := groupThousands (roundScaled (shortest q) digits / 10 ^ digits) ++
        (if digits = 0 then ""
         else "." ++ String.mk (lastDigits (roundScaled (shortest q) digits) digits))
      if q < 0 then "-" ++ body else body

/-- The text of `x.toFixed(digits)`; for a magnitude of `10^21` or more it is
the text of `x.toString()`, given by `toStr`. -/
def toFixed (toStr : JSNum → String) (x : ℚ) (digits : Nat) : String :=
  if 10 ^ 21 ≤ |x| then toStr (JSNum.fin x)
  else
    let body := toString (roundScaled x digits / 10 ^ digits) ++
      (if digits = 0 then "" else "." ++ String.mk (lastDigits (roundScaled x digits) digits))
    if x < 0 then "-" ++ body else body

/-- The comparison `num === 0`. -/
def isZero : JSValue → Bool
  | num (JSNum.fin q) => decide (q = 0)
  | _ => false

namespace CardSection

/-- The helper `formatNumber` of `CardSection.js`; `shortest` is the
conversion `toLocaleString` starts with.  The conversion `Number(num)` is the
identity on a number; for a truthy value of another type it is not modelled
and the result is `none`. -/
def formatNumber (shortest : ℚ → ℚ) (value : JSValue) (decimals : Nat) : Option String :=
  if !value.truthy || isZero value then some "0"
  else
    match value with
    | num x => some (toLocaleString shortest x decimals)
    | _ => none

/-- The element under the caption `Current Price`. -/
inductive PriceView where
  | skeleton
  | text (content : String)

/-- The current-price element of `CardSection`: `<PriceLoadingSkeleton />`
while `loading`, otherwise the text `$` followed by
`formatNumber(currentPrice)`. -/
def priceView (shortest : ℚ → ℚ) (currentPrice : JSValue) (loading : Bool) :
    Option PriceView :=
  if loading then some PriceView.skeleton
  else (formatNumber shortest currentPrice 2).map fun t => PriceView.text ("$" ++ t)

end CardSection

/-- The current-price element of a displayed dashboard: `App` passes
`coinData.currentPrice` and `loading` to `CardSection`. -/
def Dashboard.price (shortest : ℚ → ℚ) (d : Dashboard) : Option CardSection.PriceView :=
  CardSection.priceView shortest (d.coinData.propOf "currentPrice") d.loading

/-! ### What en-US notation with two fraction digits is -/

/-- The number that a list of decimal digit characters denotes, the most
significant digit first. -/
def readDecimal (cs : List Char) : Nat :=
  cs.foldl (fun acc c => 10 * acc + (c.toNat - 48)) 0

/-- The text `text` writes the amount of `cents` hundredths in en-US notation
with exactly two fraction digits: an integer part, a point and two digits
that read as `cents % 100`; the integer part is made of digits and commas, a
comma standing exactly at every fourth place counted from the point and never
in front, it has no leading zero (a lone `0` apart), and without its commas it
reads as `cents / 100`. -/
def IsEnUSAmount (cents : Nat) (text : String) : Prop :=
  ∃ intPart frac : List Char,
    text.data = intPart ++ '.' :: frac ∧
    frac.length = 2 ∧
    (∀ c ∈ frac, c.isDigit = true) ∧
    readDecimal frac = cents % 100 ∧
    intPart ≠ [] ∧
    (∀ c ∈ intPart, c.isDigit = true ∨ c = ',') ∧
    (∀ i, i < intPart.length → (intPart.reverse.getD i '0' = ',' ↔ i % 4 = 3)) ∧
    intPart.head? ≠ some ',' ∧
    (intPart.head? = some '0' → intPart = ['0']) ∧
    readDecimal (intPart.filter fun c => decide (c ≠ ',')) = cents / 100

/-- The payload of the test `displays current price when data is loaded`. -/
def bitcoinPayload : JSValue :=
  obj [("name", str "Bitcoin"),
       ("market_data", obj [("current_price", obj [("usd", ofRat 50000)]),
                            ("market_cap_change_percentage_24h", ofRat 2.5),
                            ("ath", obj [("usd", ofRat 69000)]),
                            ("atl", obj [("usd", ofRat 1)]),
                            ("high_24h", obj [("usd", ofRat 51000)]),
                            ("low_24h", obj [("usd", ofRat 49000)])]),
       ("sentiment_votes_up_percentage", ofRat 80),
       ("community_data", obj [("twitter_followers", ofRat 50000)])]

/-- The hook state once the test's payload has been loaded at time 1. -/
def bitcoinLoaded : CryptoState :=
  { data := bitcoinPayload, loading := false, error := none, lastUpdated := some 1 }

/-! ## `formatLargeNumber` (`utils/formatters.js`) -/

namespace formatters

/-- The array `units`. -/
def units : List String := ["", "K", "M", "B", "T"]

/-- The number of times `n` can be divided by 1000 before it drops below
1000, looking at most `fuel` times: the integer part of the base-1000
logarithm of `n` when `fuel` is at least that. -/
def log1000 : Nat → Nat → Nat
  | 0, _ => 0
  | fuel + 1, n => if n < 1000 then 0 else log1000 fuel (n / 1000) + 1

/-- The value of `Math.log10(Math.abs(num)) / 3 | 0` for a finite non-zero
`num`, computed exactly: the base-1000 logarithm of the magnitude, truncated
toward zero. -/
def tierOf (q : ℚ) : Int :=
  if 1 ≤ |q| then (log1000 ⌊|q|⌋.toNat ⌊|q|⌋.toNat : Int)
  else - (log1000 ⌊1 / |q|⌋.toNat ⌊1 / |q|⌋.toNat : Int)

/-- The element `units[tier]` as a template literal prints it: the text
`undefined` when the index is outside the array. -/
def unitText (tier : Int) : String :=
  if tier < 0 then "undefined" else (units.get? tier.toNat).getD "undefined"

/-- The function `formatLargeNumber`; `toStr` gives the text of
`num.toString()`. -/
def formatLargeNumber (toStr : JSNum → String) (x : JSNum) : String :=
  match x with
  | JSNum.nan => "0"
  | JSNum.posInf => toStr x
  | JSNum.negInf => toStr x
  | JSNum.fin q =>
      if q = 0 then "0"
      else
        let tier := tierOf q
        if tier = 0 then toStr x
        else
          let unit := unitText tier
          let scale : ℚ := 10 ^ (tier * 3)
          let scaled := q / scale
          toFixed toStr scaled 1 ++ unit

end formatters

end CryptoReact

namespace CryptoReact

open JSValue

theorem or_not_nullish (a b : JSValue) (hb : b.isNullish = false) :
    (a.or b).isNullish = false := by
  unfold JSValue.or
  split
  · cases a <;> simp_all [truthy, isNullish]
  · exact hb

theorem propOf_of_falsy (a : JSValue) (key : String) (h : a.truthy = false) :
    a.propOf key = undefined := by
  cases a <;> simp_all [truthy, propOf]

theorem getProp_obj (props : List (String × JSValue)) (key : String) :
    (obj props).getProp key = Except.ok (lookup props key) := rfl

theorem getProp_or_obj (m : JSValue) (key : String) :
    (m.or (obj [])).getProp key = Except.ok (valueAt m [key]) := by
  have hn : (m.or (obj [])).isNullish = false := or_not_nullish m _ rfl
  have hv : (m.or (obj [])).propOf key = valueAt m [key] := by
    cases ht : m.truthy
    · have hp := propOf_of_falsy m key ht
      simp only [JSValue.or, ht, valueAt, hp, ite_self]
      rfl
    · have hm : m.isNullish = false := by cases m <;> simp_all [truthy, isNullish]
      simp [JSValue.or, ht, valueAt, hm]
  simp [getProp, hn, hv, pure, Except.pure]

theorem optProp_eq (v : JSValue) (key : String) :
    v.optProp key = Except.ok (valueAt v [key]) := by
  cases hv : v.isNullish <;> simp [optProp, getProp, hv, valueAt, pure, Except.pure]

theorem valueAt_valueAt (m : JSValue) (k1 k2 : String) :
    valueAt (valueAt m [k1]) [k2] = valueAt m [k1, k2] := by
  cases hm : m.isNullish
  · simp only [valueAt, hm, Bool.false_eq_true, if_false]
  · simp only [valueAt, hm, if_true]
    rfl

theorem valueAt_obj (props : List (String × JSValue)) (key : String) (rest : List String) :
    valueAt (obj props) (key :: rest) = valueAt (lookup props key) rest := by
  simp [valueAt, isNullish, propOf]

theorem coinData_eq_specRecord (props : List (String × JSValue)) :
    coinData (obj props) = Except.ok (specRecord (obj props)) := by
  simp only [coinData, getProp_obj, getProp_or_obj, optProp_eq, valueAt_valueAt, bind,
    Except.bind, pure, Except.pure, specRecord, fieldTable, List.map, valueAt_obj]
  rfl

theorem or_defined (a b : JSValue)
    (hb : b ≠ undefined ∧ b ≠ null ∧ b ≠ num JSNum.nan) :
    a.or b ≠ undefined ∧ a.or b ≠ null ∧ a.or b ≠ num JSNum.nan := by
  unfold JSValue.or
  split
  · rename_i h
    refine ⟨?_, ?_, ?_⟩ <;> intro hc <;> rw [hc] at h <;> simp [truthy] at h
  · exact hb

theorem valueAt_undefined (path : List String) : valueAt undefined path = undefined := by
  cases path <;> simp [valueAt, isNullish]

theorem valueAt_of_nullish (v : JSValue) (path : List String) (h : v.isNullish = true) :
    (valueAt v path).isNullish = true := by
  cases path with
  | nil => simpa [valueAt] using h
  | cons k rest =>
    simp only [valueAt, h, if_true]
    rfl

theorem valueAt_append (v : JSValue) (p q : List String) :
    valueAt v (p ++ q) = valueAt (valueAt v p) q := by
  induction p generalizing v with
  | nil => rfl
  | cons k rest ih =>
    cases hv : v.isNullish
    · simp [valueAt, hv, ih]
    · simp [valueAt, hv, valueAt_undefined]

theorem nullish_of_segmentMissing (data : JSValue) (path : List String)
    (h : segmentMissing data path = true) : (valueAt data path).isNullish = true := by
  simp only [segmentMissing, List.any_eq_true, List.mem_range] at h
  obtain ⟨i, _, hi⟩ := h
  have hsplit : valueAt data path
      = valueAt (valueAt data (path.take (i + 1))) (path.drop (i + 1)) := by
    rw [← valueAt_append, List.take_append_drop]
  rw [hsplit]
  exact valueAt_of_nullish _ _ hi

theorem or_of_nullish (v d : JSValue) (h : v.isNullish = true) : v.or d = d := by
  cases v <;> simp_all [isNullish, JSValue.or, truthy]

theorem or_of_fieldTyped (v d : JSValue) (hd : d = zero ∨ d = str "")
    (h : fieldTyped d v = true) : v.or d = v := by
  rcases hd with rfl | rfl
  · cases v <;> simp [fieldTyped, zero] at h
    rename_i m
    cases m with
    | fin q =>
      by_cases hq : q = 0
      · subst hq
        simp [JSValue.or, truthy, zero]
      · simp [JSValue.or, truthy, hq]
    | posInf => simp [JSValue.or, truthy]
    | negInf => simp [JSValue.or, truthy]
    | nan => simp at h
  · cases v <;> simp [fieldTyped] at h
    rename_i s
    by_cases hs : s = ""
    · subst hs
      simp [JSValue.or, truthy]
    · simp [JSValue.or, truthy, hs]

theorem default_of_mem_fieldTable (key : String) (path : List String) (dflt : JSValue)
    (hmem : (key, path, dflt) ∈ fieldTable) : dflt = zero ∨ dflt = str "" := by
  simp only [fieldTable, List.mem_cons, Prod.mk.injEq, List.mem_singleton, List.not_mem_nil,
    or_false] at hmem
  rcases hmem with h | h | h | h | h | h | h | h | h | h | h | h | h <;>
    (obtain ⟨_, _, rfl⟩ := h; simp)

theorem propOf_specRecord (data : JSValue) (key : String) (path : List String)
    (dflt : JSValue) (hmem : (key, path, dflt) ∈ fieldTable) :
    (specRecord data).propOf key = (valueAt data path).or dflt := by
  simp only [fieldTable, List.mem_cons, Prod.mk.injEq, List.mem_singleton, List.not_mem_nil,
    or_false] at hmem
  rcases hmem with h | h | h | h | h | h | h | h | h | h | h | h | h <;>
    (obtain ⟨rfl, rfl, rfl⟩ := h; rfl)

/-! ## The derivation: claims -/

/-- C1 (derivation totality).  For every payload object, whatever subset of
its properties, sub-objects and leaves is missing, `null` or `undefined`,
`coinData` returns (it does not throw) a record whose keys are exactly the 13
output keys and none of whose values is `null`, `undefined` or `NaN`. -/
theorem coinData_total (props : List (String × JSValue)) :
    ∃ out : List (String × JSValue),
      coinData (obj props) = Except.ok (obj out) ∧
      out.map Prod.fst = outputKeys ∧
      ∀ kv ∈ out, kv.2 ≠ undefined ∧ kv.2 ≠ null ∧ kv.2 ≠ num JSNum.nan := by
  refine ⟨fieldTable.map fun (row : String × List String × JSValue) =>
      (row.1, (valueAt (obj props) row.2.1).or row.2.2),
    coinData_eq_specRecord props, rfl, ?_⟩
  intro kv hkv
  obtain ⟨row, hrow, rfl⟩ := List.mem_map.1 hkv
  apply or_defined
  obtain ⟨key, path, dflt⟩ := row
  rcases default_of_mem_fieldTable key path dflt hrow with h | h <;>
    (simp only [h, zero]; refine ⟨?_, ?_, ?_⟩ <;> intro hc <;> cases hc)

/-- C2 (default substitution).  For every payload object and every output
field of the table, if some segment of the field's path is missing, `null` or
`undefined`, the derived field is exactly the default of the table (`0` for the
12 numeric fields, the empty string for `name`); and the empty payload derives
to the record with `name = ""` and every other field `0`. -/
theorem coinData_default_substitution :
    (∀ (props : List (String × JSValue)) (key : String) (path : List String)
        (dflt : JSValue),
        (key, path, dflt) ∈ fieldTable →
        segmentMissing (obj props) path = true →
        (coinData (obj props)).map (fun out => out.propOf key) = Except.ok dflt) ∧
    coinData (obj []) = Except.ok (obj
      [("name", str ""), ("currentPrice", zero), ("marketCapChange24h", zero),
       ("allTimeHigh", zero), ("allTimeLow", zero), ("sentiment", zero), ("high24h", zero),
       ("low24h", zero), ("priceChange24h", zero), ("marketCap", zero),
       ("totalVolume", zero), ("circulatingSupply", zero), ("twitterFollowers", zero)]) := by
  refine ⟨?_, rfl⟩
  intro props key path dflt hmem hmiss
  rw [coinData_eq_specRecord]
  simp only [Except.map]
  rw [propOf_specRecord _ key path dflt hmem,
    or_of_nullish _ _ (nullish_of_segmentMissing _ _ hmiss)]

/-- Witness for C2: in `{ market_data: { current_price: null } }` the path of
`currentPrice` has a `null` segment, and the derived `currentPrice` is `0`. -/
theorem coinData_default_substitution_witness :
    segmentMissing (obj [("market_data", obj [("current_price", null)])])
        ["market_data", "current_price", "usd"] = true ∧
      (coinData (obj [("market_data", obj [("current_price", null)])])).map
        (fun out => out.propOf "currentPrice") = Except.ok zero :=
  ⟨by decide, coinData_default_substitution.1 _ "currentPrice"
    ["market_data", "current_price", "usd"] zero (by simp [fieldTable]) (by decide)⟩

/-- C3 (field mapping).  For every payload object and every row
`(field, path, default)` of the table (`name <- name`,
`currentPrice <- market_data.current_price.usd`, ...,
`allTimeLow <- market_data.atl.usd`, ...,
`twitterFollowers <- community_data.twitter_followers`), if the path is present
with a value of the field's type (a number for the 12 numeric fields, a string
for `name`), the derived field equals the value at that path, whatever stands
at the other paths. -/
theorem coinData_field_mapping (props : List (String × JSValue)) (key : String)
    (path : List String) (dflt : JSValue)
    (hmem : (key, path, dflt) ∈ fieldTable)
    (htyped : fieldTyped dflt (valueAt (obj props) path) = true) :
    (coinData (obj props)).map (fun out => out.propOf key)
      = Except.ok (valueAt (obj props) path) := by
  rw [coinData_eq_specRecord]
  simp only [Except.map]
  rw [propOf_specRecord _ key path dflt hmem,
    or_of_fieldTyped _ _ (default_of_mem_fieldTable key path dflt hmem) htyped]

/-- Witness for C3: with an all-time high of 4800 and an all-time low of 0.42
in the payload, the derived `allTimeLow` is the value at `market_data.atl.usd`,
0.42. -/
theorem coinData_field_mapping_witness :
    (coinData examplePayload).map (fun out => out.propOf "allTimeLow")
      = Except.ok (ofRat 0.42) :=
  coinData_field_mapping _ "allTimeLow" ["market_data", "atl", "usd"] zero
    (by simp [fieldTable]) (by decide)

/-- C4 (worked example).  The example payload derives to a record with
exactly the 13 properties the specification lists: `name = "Ethereum"`,
`currentPrice = 2000`, `allTimeHigh = 4800`, `allTimeLow = 0.42`,
`sentiment = 75` and every other field `0`. -/
theorem coinData_worked_example :
    ∃ out : List (String × JSValue),
      coinData examplePayload = Except.ok (obj out) ∧ out.Perm exampleView := by
  refine ⟨[("name", str "Ethereum"), ("currentPrice", ofRat 2000),
      ("marketCapChange24h", zero), ("allTimeHigh", ofRat 4800), ("allTimeLow", ofRat 0.42),
      ("sentiment", ofRat 75), ("high24h", zero), ("low24h", zero), ("priceChange24h", zero),
      ("marketCap", zero), ("totalVolume", zero), ("circulatingSupply", zero),
      ("twitterFollowers", zero)], ?_, ?_⟩
  · rw [examplePayload, coinData_eq_specRecord]
    simp [specRecord, fieldTable, valueAt, isNullish, propOf, lookup,
      JSValue.or, truthy, ofRat, zero]
    norm_num
  · refine List.Perm.cons _ (List.Perm.cons _ ?_)
    have hmid : ∀ (x : String × JSValue) (front back : List (String × JSValue)),
        (front ++ x :: back).Perm (x :: (front ++ back)) :=
      fun _ _ _ => List.perm_middle
    exact (hmid ("marketCapChange24h", zero)
      [("allTimeHigh", ofRat 4800), ("allTimeLow", ofRat 0.42), ("sentiment", ofRat 75)]
      _).symm


/-! ## The hooks: what one fetch does -/

theorem fetchData_exec (coinId : Option String) (net : String → FetchResult) (now : Nat)
    (s : CryptoState) (sent : List String) :
    (useCryptoData.fetchData coinId net now).exec ⟨s, sent⟩ =
      (Except.ok (),
        ⟨match (net (useCryptoData.url coinId)).outcome with
          | Except.ok v =>
              { data := v, loading := false, error := none, lastUpdated := some now }
          | Except.error m =>
              { data := s.data, loading := false, error := some m,
                lastUpdated := s.lastUpdated },
         sent ++ [useCryptoData.url coinId]⟩) := by
  cases hnet : net (useCryptoData.url coinId) with
  | rejected m =>
    simp [useCryptoData.fetchData, Async.exec, fetch, hnet, FetchResult.outcome]
    rfl
  | resolved r =>
    cases hok : r.ok
    · simp [useCryptoData.fetchData, Async.exec, fetch, hnet, FetchResult.outcome, hok]
      rfl
    · cases hb : r.body with
      | error m =>
        simp [useCryptoData.fetchData, Async.exec, fetch, hnet, FetchResult.outcome, hok, hb,
          Response.json]
        rfl
      | ok v =>
        simp [useCryptoData.fetchData, Async.exec, fetch, hnet, FetchResult.outcome, hok, hb,
          Response.json]
        rfl

theorem fetchChartData_exec (coinId : Option String) (timeRange : Option Nat)
    (net : String → FetchResult) (c : ChartState) (sent : List String) :
    (useChartData.fetchChartData coinId timeRange net).exec ⟨c, sent⟩ =
      (Except.ok (),
        ⟨match (net (useChartData.url coinId timeRange)).outcome with
          | Except.ok v => { chartData := v, loading := false, error := none }
          | Except.error m => { chartData := c.chartData, loading := false, error := some m },
         sent ++ [useChartData.url coinId timeRange]⟩) := by
  cases hnet : net (useChartData.url coinId timeRange) with
  | rejected m =>
    simp [useChartData.fetchChartData, Async.exec, fetch, hnet, FetchResult.outcome]
    rfl
  | resolved r =>
    cases hok : r.ok
    · simp [useChartData.fetchChartData, Async.exec, fetch, hnet, FetchResult.outcome, hok]
      rfl
    · cases hb : r.body with
      | error m =>
        simp [useChartData.fetchChartData, Async.exec, fetch, hnet, FetchResult.outcome, hok,
          hb, Response.json]
        rfl
      | ok v =>
        simp [useChartData.fetchChartData, Async.exec, fetch, hnet, FetchResult.outcome, hok,
          hb, Response.json]
        rfl

theorem effect_exec_of_id (coinId : Option String) (net : String → FetchResult) (now : Nat)
    (w : Run CryptoState) (hid : notId coinId = false) :
    (useCryptoData.effect coinId net now).exec w
      = (useCryptoData.fetchData coinId net now).exec w := by
  simp [useCryptoData.effect, hid]

theorem effect_exec_of_not_id (coinId : Option String) (net : String → FetchResult)
    (now : Nat) (w : Run CryptoState) (hid : notId coinId = true) :
    (useCryptoData.effect coinId net now).exec w = (Except.ok (), w) := by
  simp [useCryptoData.effect, hid]
  rfl

theorem chart_effect_exec_of_absent (coinId : Option String) (timeRange : Option Nat)
    (net : String → FetchResult) (w : Run ChartState)
    (h : (notId coinId || notRange timeRange) = true) :
    (useChartData.effect coinId timeRange net).exec w = (Except.ok (), w) := by
  simp only [useChartData.effect, h, if_true]
  rfl

theorem outcome_of_not_ok (r : Response) (h : r.ok = false) :
    (FetchResult.resolved r).outcome
      = Except.error ("HTTP error! status: " ++ toString r.status) := by
  simp [FetchResult.outcome, h]

theorem outcome_of_ok (r : Response) (h : r.ok = true) :
    (FetchResult.resolved r).outcome = r.body := by
  simp [FetchResult.outcome, h]

/-! ## The hooks: claims -/

/-- C5 (HTTP error, then recovery).  A fetch triggered by the effect of
`useCryptoData` whose response has a non-2xx status `s` ends, without
throwing, in Failed: `loading = false` and an error message that contains the
decimal digits of `s` (it is `"HTTP error! status: "` followed by them).  A
subsequent triggered fetch for a non-empty identifier that gets an ok response
with a decodable body ends in Success: `loading = false`, `error = null` and
the new payload stored. -/
theorem http_error_then_recovery (coinId coinId2 : Option String)
    (net net2 : String → FetchResult) (now now2 : Nat) (w : Run CryptoState)
    (r r2 : Response) (payload : JSValue)
    (hid : notId coinId = false)
    (hnet : net (useCryptoData.url coinId) = FetchResult.resolved r)
    (hstatus : ¬ (200 ≤ r.status ∧ r.status ≤ 299))
    (hid2 : notId coinId2 = false)
    (hnet2 : net2 (useCryptoData.url coinId2) = FetchResult.resolved r2)
    (hok2 : r2.ok = true) (hbody2 : r2.body = Except.ok payload) :
    ∃ w1 w2 : Run CryptoState,
      (useCryptoData.effect coinId net now).exec w = (Except.ok (), w1) ∧
      w1.hook.loading = false ∧
      w1.hook.error = some ("HTTP error! status: " ++ toString r.status) ∧
      (∃ m pre post : String, w1.hook.error = some m ∧ m = pre ++ toString r.status ++ post) ∧
      (useCryptoData.effect coinId2 net2 now2).exec w1 = (Except.ok (), w2) ∧
      w2.hook.loading = false ∧ w2.hook.error = none ∧ w2.hook.data = payload := by
  have hok : r.ok = false := by simp [Response.ok, hstatus]
  obtain ⟨s, sent⟩ := w
  have h1 : (useCryptoData.effect coinId net now).exec ⟨s, sent⟩ =
      (Except.ok (),
        ⟨{ data := s.data, loading := false,
           error := some ("HTTP error! status: " ++ toString r.status),
           lastUpdated := s.lastUpdated },
         sent ++ [useCryptoData.url coinId]⟩) := by
    rw [effect_exec_of_id _ _ _ _ hid, fetchData_exec, hnet, outcome_of_not_ok r hok]
  have h2 : ∀ w1 : Run CryptoState, (useCryptoData.effect coinId2 net2 now2).exec w1 =
      (Except.ok (),
        ⟨{ data := payload, loading := false, error := none, lastUpdated := some now2 },
         w1.sent ++ [useCryptoData.url coinId2]⟩) := by
    intro w1
    obtain ⟨s1, sent1⟩ := w1
    rw [effect_exec_of_id _ _ _ _ hid2, fetchData_exec, hnet2, outcome_of_ok r2 hok2, hbody2]
  exact ⟨_, _, h1, rfl, rfl, ⟨_, "HTTP error! status: ", "", rfl, by simp⟩, h2 _, rfl, rfl, rfl⟩

/-- Witness for C5: `bitcoin` answered with 404, then `ethereum` answered
with 200 and the example payload. -/
theorem http_error_then_recovery_witness :
    ∃ w1 w2 : Run CryptoState,
      (useCryptoData.effect (some "bitcoin") notFoundNet 1).exec ⟨useCryptoData.initial, []⟩
        = (Except.ok (), w1) ∧
      w1.hook.loading = false ∧
      w1.hook.error = some ("HTTP error! status: " ++ toString 404) ∧
      (∃ m pre post : String, w1.hook.error = some m ∧ m = pre ++ toString 404 ++ post) ∧
      (useCryptoData.effect (some "ethereum") exampleNet 2).exec w1 = (Except.ok (), w2) ∧
      w2.hook.loading = false ∧ w2.hook.error = none ∧ w2.hook.data = examplePayload :=
  http_error_then_recovery (some "bitcoin") (some "ethereum") notFoundNet exampleNet 1 2
    ⟨useCryptoData.initial, []⟩ _ _ examplePayload (by decide) rfl (by decide) (by decide) rfl
    (by decide) rfl

/-- C6, as stated, fails: a response `404 Not Found` leaves the message
`"HTTP error! status: 404"` in the fetch state, which is neither the
response's status text `"Not Found"` nor the bare status `"404"`: text has
been added. -/
theorem error_message_not_raw_status_text :
    ((useCryptoData.effect (some "bitcoin") notFoundNet 1).exec
        ⟨useCryptoData.initial, []⟩).2.hook.error = some "HTTP error! status: 404" ∧
      (some "HTTP error! status: 404" : Option String) ≠ some "Not Found" ∧
      (some "HTTP error! status: 404" : Option String) ≠ some "404" := by
  refine ⟨rfl, by decide, by decide⟩

/-- C6 (amended).  For every failed asset fetch the stored error message is:
for a non-2xx response with status `s`, the text `"HTTP error! status: "`
followed by the decimal digits of `s` (the response's status text is not used);
for a rejected request, exactly the thrown error's message; for a body that
fails to decode, exactly the decode error's message. -/
theorem error_message_of_failed_fetch (coinId : Option String) (net : String → FetchResult)
    (now : Nat) (w : Run CryptoState) (hid : notId coinId = false) :
    (∀ r, net (useCryptoData.url coinId) = FetchResult.resolved r → r.ok = false →
      ((useCryptoData.effect coinId net now).exec w).2.hook.error
        = some ("HTTP error! status: " ++ toString r.status)) ∧
    (∀ m, net (useCryptoData.url coinId) = FetchResult.rejected m →
      ((useCryptoData.effect coinId net now).exec w).2.hook.error = some m) ∧
    (∀ r m, net (useCryptoData.url coinId) = FetchResult.resolved r → r.ok = true →
      r.body = Except.error m →
      ((useCryptoData.effect coinId net now).exec w).2.hook.error = some m) := by
  obtain ⟨s, sent⟩ := w
  refine ⟨?_, ?_, ?_⟩
  · intro r hnet hok
    rw [effect_exec_of_id _ _ _ _ hid, fetchData_exec, hnet, outcome_of_not_ok r hok]
  · intro m hnet
    rw [effect_exec_of_id _ _ _ _ hid, fetchData_exec, hnet]
    rfl
  · intro r m hnet hok hbody
    rw [effect_exec_of_id _ _ _ _ hid, fetchData_exec, hnet, outcome_of_ok r hok, hbody]

/-- Witness for C6 (amended): a request rejected with `"Network error"`
stores exactly `"Network error"`. -/
theorem error_message_of_failed_fetch_witness :
    ((useCryptoData.effect (some "bitcoin") (rejectingNet "Network error") 1).exec
        ⟨useCryptoData.initial, []⟩).2.hook.error = some "Network error" :=
  (error_message_of_failed_fetch (some "bitcoin") (rejectingNet "Network error") 1
    ⟨useCryptoData.initial, []⟩ (by decide)).2.1 "Network error" rfl

/-- C8 (stale-while-error for charts).  For every chart fetch triggered by
the effect of `useChartData` that fails (non-2xx response, rejected request or
body that fails to decode), the function returns without throwing, the stored
chart series (`chartData`, with its `prices`, `market_caps` and
`total_volumes`) are unchanged, and the hook's `error` is a message, not
`null`. -/
theorem chart_stale_while_error (coinId : Option String) (timeRange : Option Nat)
    (net : String → FetchResult) (w : Run ChartState)
    (hpresent : (notId coinId || notRange timeRange) = false)
    (hfail : (net (useChartData.url coinId timeRange)).succeeds = false) :
    ∃ w' : Run ChartState,
      (useChartData.effect coinId timeRange net).exec w = (Except.ok (), w') ∧
      w'.hook.chartData = w.hook.chartData ∧
      w'.hook.chartData.propOf "prices" = w.hook.chartData.propOf "prices" ∧
      w'.hook.chartData.propOf "market_caps" = w.hook.chartData.propOf "market_caps" ∧
      w'.hook.chartData.propOf "total_volumes" = w.hook.chartData.propOf "total_volumes" ∧
      (∃ m, w'.hook.error = some m) ∧ w'.hook.error ≠ none := by
  obtain ⟨c, sent⟩ := w
  have hexec : (useChartData.effect coinId timeRange net).exec ⟨c, sent⟩
      = (useChartData.fetchChartData coinId timeRange net).exec ⟨c, sent⟩ := by
    simp [useChartData.effect, hpresent]
  have hout : ∃ m, (net (useChartData.url coinId timeRange)).outcome = Except.error m := by
    cases hnet : net (useChartData.url coinId timeRange) with
    | rejected m => exact ⟨m, rfl⟩
    | resolved r =>
      rw [hnet] at hfail
      cases hok : r.ok
      · exact ⟨_, outcome_of_not_ok r hok⟩
      · cases hb : r.body with
        | error m => exact ⟨m, by rw [outcome_of_ok r hok, hb]⟩
        | ok v => simp [FetchResult.succeeds, hok, hb] at hfail
  obtain ⟨m, hm⟩ := hout
  refine ⟨_, hexec.trans (fetchChartData_exec coinId timeRange net c sent), ?_⟩
  rw [hm]
  exact ⟨rfl, rfl, rfl, rfl, ⟨m, rfl⟩, by simp⟩

/-- Witness for C8: a chart fetch for `bitcoin` over 365 days answered with
404, from the initial chart state. -/
theorem chart_stale_while_error_witness :
    ∃ w' : Run ChartState,
      (useChartData.effect (some "bitcoin") (some 365) notFoundNet).exec
        ⟨useChartData.initial, []⟩ = (Except.ok (), w') ∧
      w'.hook.chartData = useChartData.initial.chartData ∧
      w'.hook.chartData.propOf "prices" = useChartData.initial.chartData.propOf "prices" ∧
      w'.hook.chartData.propOf "market_caps"
        = useChartData.initial.chartData.propOf "market_caps" ∧
      w'.hook.chartData.propOf "total_volumes"
        = useChartData.initial.chartData.propOf "total_volumes" ∧
      (∃ m, w'.hook.error = some m) ∧ w'.hook.error ≠ none :=
  chart_stale_while_error (some "bitcoin") (some 365) notFoundNet ⟨useChartData.initial, []⟩
    (by decide) (by decide)

theorem fetchData_requested_exec (coinId : Option String) (s : CryptoState)
    (sent : List String) :
    (useCryptoData.fetchData.requested coinId).exec ⟨s, sent⟩ =
      (Except.ok (),
        ⟨{ data := s.data, loading := true, error := none, lastUpdated := s.lastUpdated },
         sent ++ [useCryptoData.url coinId]⟩) := rfl

theorem fetchData_settled_exec (result : FetchResult) (now : Nat) (s : CryptoState)
    (sent : List String) :
    (useCryptoData.fetchData.settled result now).exec ⟨s, sent⟩ =
      (Except.ok (),
        ⟨match result.outcome with
          | Except.ok v =>
              { data := v, loading := false, error := s.error, lastUpdated := some now }
          | Except.error m =>
              { data := s.data, loading := false, error := some m,
                lastUpdated := s.lastUpdated },
         sent⟩) := by
  cases result with
  | rejected m =>
    simp [useCryptoData.fetchData.settled, Async.exec, FetchResult.outcome]
    rfl
  | resolved r =>
    cases hok : r.ok
    · simp [useCryptoData.fetchData.settled, Async.exec, FetchResult.outcome, hok]
      rfl
    · cases hb : r.body with
      | error m =>
        simp [useCryptoData.fetchData.settled, Async.exec, FetchResult.outcome, hok, hb,
          Response.json]
        rfl
      | ok v =>
        simp [useCryptoData.fetchData.settled, Async.exec, FetchResult.outcome, hok, hb,
          Response.json]
        rfl

theorem outcome_isOk_eq_succeeds (result : FetchResult) :
    (match result.outcome with | Except.ok _ => true | Except.error _ => false)
      = result.succeeds := by
  cases result with
  | rejected m => rfl
  | resolved r =>
    cases hok : r.ok <;> cases hb : r.body <;> simp [FetchResult.outcome, FetchResult.succeeds, hok, hb]

theorem onEvent_lastUpdated (s : CryptoState) (ev : FetchEvent) :
    (onEvent s ev).lastUpdated = (successTime ev).or s.lastUpdated := by
  cases ev with
  | requested coinId => rfl
  | settled result now =>
    simp only [onEvent, fetchData_settled_exec, successTime, ← outcome_isOk_eq_succeeds]
    cases result.outcome <;> rfl

theorem lastSuccess_cons (ev : FetchEvent) (rest : List FetchEvent) :
    lastSuccess (ev :: rest) = (lastSuccess rest).or (successTime ev) := by
  have h : ev :: rest = [ev] ++ rest := rfl
  rw [lastSuccess, h, List.filterMap_append, List.getLast?_append]
  cases hs : successTime ev <;> simp [lastSuccess, List.filterMap_cons, hs]

theorem foldl_onEvent_lastUpdated (events : List FetchEvent) (s : CryptoState) :
    (events.foldl onEvent s).lastUpdated = (lastSuccess events).or s.lastUpdated := by
  induction events generalizing s with
  | nil => rfl
  | cons ev rest ih =>
    rw [List.foldl_cons, ih, onEvent_lastUpdated, lastSuccess_cons]
    cases lastSuccess rest <;> cases successTime ev <;> rfl

theorem fetchData_exec_eq_phases (coinId : Option String) (net : String → FetchResult)
    (now : Nat) (s : CryptoState) (sent : List String) :
    (useCryptoData.fetchData coinId net now).exec ⟨s, sent⟩ =
      (useCryptoData.fetchData.settled (net (useCryptoData.url coinId)) now).exec
        ((useCryptoData.fetchData.requested coinId).exec ⟨s, sent⟩).2 := by
  rw [fetchData_exec, fetchData_requested_exec, fetchData_settled_exec]

/-- C9 (last-updated timestamp).  The function `fetchData` of `useCryptoData`
is its requested phase followed by its settled phase.  When a fetch is
requested the state becomes Loading and `lastUpdated` is left unchanged; when
a network call settles at time `now`, `lastUpdated` becomes `now` if the fetch
succeeded and is left unchanged if it failed.  Hence after any sequence of
such events from the initial state, overlapping fetches included,
`lastUpdated` is the completion time of the most recent successful fetch, or
`null` if there was none. -/
theorem lastUpdated_is_last_success :
    (∀ (coinId : Option String) (net : String → FetchResult) (now : Nat)
        (w : Run CryptoState),
      (useCryptoData.fetchData coinId net now).exec w =
        (useCryptoData.fetchData.settled (net (useCryptoData.url coinId)) now).exec
          ((useCryptoData.fetchData.requested coinId).exec w).2) ∧
    (∀ (s : CryptoState) (coinId : Option String),
      (onEvent s (FetchEvent.requested coinId)).loading = true ∧
      (onEvent s (FetchEvent.requested coinId)).lastUpdated = s.lastUpdated) ∧
    (∀ (s : CryptoState) (result : FetchResult) (now : Nat),
      (onEvent s (FetchEvent.settled result now)).lastUpdated
        = if result.succeeds then some now else s.lastUpdated) ∧
    (∀ events : List FetchEvent, (afterEvents events).lastUpdated = lastSuccess events) := by
  refine ⟨?_, ?_, ?_, ?_⟩
  · intro coinId net now w
    exact fetchData_exec_eq_phases coinId net now w.hook w.sent
  · intro s coinId
    exact ⟨rfl, rfl⟩
  · intro s result now
    rw [onEvent_lastUpdated, successTime]
    cases result.succeeds <;> rfl
  · intro events
    rw [afterEvents, foldl_onEvent_lastUpdated]
    cases lastSuccess events <;> rfl

/-- C10 (no-op on absent input).  When the identifier is `undefined` or the
empty string, the effect of `useCryptoData` returns at once: no request is
issued and the whole hook state is unchanged, so from the initial state it
stays `data = {}`, `loading = false`, `error = null`, `lastUpdated = null`.
Likewise the effect of `useChartData` issues no request and leaves its state
unchanged when the identifier is `undefined` or empty, or the range is
`undefined`. -/
theorem effect_noop_on_absent_input (net : String → FetchResult) (now : Nat) :
    (∀ w : Run CryptoState, (useCryptoData.effect none net now).exec w = (Except.ok (), w)) ∧
    (∀ w : Run CryptoState,
      (useCryptoData.effect (some "") net now).exec w = (Except.ok (), w)) ∧
    (useCryptoData.effect none net now).exec ⟨useCryptoData.initial, []⟩
      = (Except.ok (),
          ⟨{ data := obj [], loading := false, error := none, lastUpdated := none }, []⟩) ∧
    (useCryptoData.effect (some "") net now).exec ⟨useCryptoData.initial, []⟩
      = (Except.ok (),
          ⟨{ data := obj [], loading := false, error := none, lastUpdated := none }, []⟩) ∧
    (∀ (timeRange : Option Nat) (w : Run ChartState),
      (useChartData.effect none timeRange net).exec w = (Except.ok (), w)) ∧
    (∀ (timeRange : Option Nat) (w : Run ChartState),
      (useChartData.effect (some "") timeRange net).exec w = (Except.ok (), w)) ∧
    (∀ (coinId : Option String) (w : Run ChartState),
      (useChartData.effect coinId none net).exec w = (Except.ok (), w)) := by
  refine ⟨?_, ?_, ?_, ?_, ?_, ?_, ?_⟩
  · intro w
    exact effect_exec_of_not_id none net now w rfl
  · intro w
    exact effect_exec_of_not_id (some "") net now w (by decide)
  · exact effect_exec_of_not_id none net now _ rfl
  · exact effect_exec_of_not_id (some "") net now _ (by decide)
  · intro timeRange w
    exact chart_effect_exec_of_absent none timeRange net w rfl
  · intro timeRange w
    exact chart_effect_exec_of_absent (some "") timeRange net w (by simp [notId])
  · intro coinId w
    exact chart_effect_exec_of_absent coinId none net w (by simp [notRange])

/-! ## The hooks: one fetch, phase by phase -/

theorem fetchChartData_requested_exec (coinId : Option String) (timeRange : Option Nat)
    (c : ChartState) (sent : List String) :
    (useChartData.fetchChartData.requested coinId timeRange).exec ⟨c, sent⟩ =
      (Except.ok (),
        ⟨{ chartData := c.chartData, loading := true, error := none },
         sent ++ [useChartData.url coinId timeRange]⟩) := rfl

theorem fetchChartData_settled_exec (result : FetchResult) (c : ChartState)
    (sent : List String) :
    (useChartData.fetchChartData.settled result).exec ⟨c, sent⟩ =
      (Except.ok (),
        ⟨match result.outcome with
          | Except.ok v => { chartData := v, loading := false, error := c.error }
          | Except.error m => { chartData := c.chartData, loading := false, error := some m },
         sent⟩) := by
  cases result with
  | rejected m =>
    simp [useChartData.fetchChartData.settled, Async.exec, FetchResult.outcome]
    rfl
  | resolved r =>
    cases hok : r.ok
    · simp [useChartData.fetchChartData.settled, Async.exec, FetchResult.outcome, hok]
      rfl
    · cases hb : r.body with
      | error m =>
        simp [useChartData.fetchChartData.settled, Async.exec, FetchResult.outcome, hok, hb,
          Response.json]
        rfl
      | ok v =>
        simp [useChartData.fetchChartData.settled, Async.exec, FetchResult.outcome, hok, hb,
          Response.json]
        rfl

theorem fetchChartData_exec_eq_phases (coinId : Option String) (timeRange : Option Nat)
    (net : String → FetchResult) (c : ChartState) (sent : List String) :
    (useChartData.fetchChartData coinId timeRange net).exec ⟨c, sent⟩ =
      (useChartData.fetchChartData.settled (net (useChartData.url coinId timeRange))).exec
        ((useChartData.fetchChartData.requested coinId timeRange).exec ⟨c, sent⟩).2 := by
  rw [fetchChartData_exec, fetchChartData_requested_exec, fetchChartData_settled_exec]

/-- C7, as stated, fails.  (a) A chart fetch answered with 404 ends in Failed
(the chart hook stores `"HTTP error! status: 404"`), yet `App`, whose asset
fetch succeeded, renders the dashboard and no alert: the chart hook's error
never reaches the render.  (b) An asset fetch rejected with an `Error` whose
message is empty ends in Failed with `error = ""`, which the test `if (error)`
treats as no error: `App` renders the dashboard.  (c) When two chart fetches
overlap and the first is rejected before the second is answered ok, the second
finishes with `loading = false`, the payload replaced and the first one's
message still in `error`: neither Success (`error = null`) nor Failed (payload
unchanged). -/
theorem fetch_step_counterexamples :
    (((useChartData.effect (some "bitcoin") (some 365) notFoundNet).exec
          ⟨useChartData.initial, []⟩).2.hook.error = some "HTTP error! status: 404" ∧
      ∀ m : String,
        App.render "bitcoin"
          ((useCryptoData.effect (some "bitcoin") exampleNet 1).exec
            ⟨useCryptoData.initial, []⟩).2.hook
          ((useChartData.effect (some "bitcoin") (some 365) notFoundNet).exec
            ⟨useChartData.initial, []⟩).2.hook
        ≠ Except.ok (View.alert "Error loading data" m)) ∧
    (((useCryptoData.effect (some "bitcoin") (rejectingNet "") 1).exec
          ⟨useCryptoData.initial, []⟩).2.hook.error = some "" ∧
      ∀ (c : ChartState) (m : String),
        App.render "bitcoin"
          ((useCryptoData.effect (some "bitcoin") (rejectingNet "") 1).exec
            ⟨useCryptoData.initial, []⟩).2.hook c
        ≠ Except.ok (View.alert "Error loading data" m)) ∧
    (overlappedChart.loading = false ∧
      overlappedChart.error = some "boom" ∧
      overlappedChart.chartData = exampleChart ∧
      overlappedChart.chartData ≠ useChartData.initial.chartData) := by
  refine ⟨⟨rfl, ?_⟩, ⟨rfl, ?_⟩, ⟨rfl, rfl, rfl, ?_⟩⟩
  · intro m h
    rw [effect_exec_of_id _ _ _ _ (by decide), fetchData_exec] at h
    simp [App.render, exampleNet, FetchResult.outcome, Response.ok, examplePayload,
      coinData_eq_specRecord, errorTruthy] at h
  · intro c m h
    rw [effect_exec_of_id _ _ _ _ (by decide), fetchData_exec] at h
    simp [App.render, rejectingNet, FetchResult.outcome, useCryptoData.initial,
      coinData_eq_specRecord, errorTruthy] at h
  · have h : overlappedChart.chartData = exampleChart := rfl
    rw [h]
    simp [exampleChart, useChartData.initial]

/-- C7 (amended).  In either hook the fetch function is its requested phase
followed, once the network call has settled, by its settled phase, and neither
throws.  The requested phase sets `loading = true` and clears `error`.  For
every outcome of the network call (ok response, non-2xx response, rejected
request, body that fails to decode) and every state the hook is in when the
call settles, the settled phase leaves `loading = false` and either replaces
the payload by the decoded body, leaving `error` as it stood (ok outcome), or
stores the failure's message in `error`, leaving the payload unchanged.  Hence
a fetch that runs with no other fetch of its hook in between ends in exactly
one of Success (`error = null`, payload replaced) or Failed (`error` = the
message, payload unchanged).  After a Failed asset fetch whose message is not
empty, `App` (holding an object as stored payload) renders the alert
`Error loading data` with that message. -/
theorem fetch_phases_contained (coinId : Option String) (timeRange : Option Nat)
    (net : String → FetchResult) (result : FetchResult) (now : Nat)
    (s : CryptoState) (c : ChartState) (sent : List String) :
    ((useCryptoData.fetchData.requested coinId).exec ⟨s, sent⟩ =
        (Except.ok (),
          ⟨{ data := s.data, loading := true, error := none, lastUpdated := s.lastUpdated },
           sent ++ [useCryptoData.url coinId]⟩)) ∧
    (∃ s' : CryptoState,
      (useCryptoData.fetchData.settled result now).exec ⟨s, sent⟩
        = (Except.ok (), ⟨s', sent⟩) ∧
      s'.loading = false ∧
      ((∃ v, result.outcome = Except.ok v ∧ s'.data = v ∧ s'.error = s.error) ∨
       (∃ m, result.outcome = Except.error m ∧ s'.error = some m ∧ s'.data = s.data ∧
          (m ≠ "" → ∀ props, s.data = obj props → ∀ (sel : String) (chart : ChartState),
            App.render sel s' chart = Except.ok (View.alert "Error loading data" m))))) ∧
    (∃ s' : CryptoState,
      (useCryptoData.fetchData coinId net now).exec ⟨s, sent⟩ =
        (useCryptoData.fetchData.settled (net (useCryptoData.url coinId)) now).exec
          ((useCryptoData.fetchData.requested coinId).exec ⟨s, sent⟩).2 ∧
      (useCryptoData.fetchData coinId net now).exec ⟨s, sent⟩
        = (Except.ok (), ⟨s', sent ++ [useCryptoData.url coinId]⟩) ∧
      s'.loading = false ∧
      ((∃ v, (net (useCryptoData.url coinId)).outcome = Except.ok v ∧
          s'.error = none ∧ s'.data = v) ∨
       (∃ m, (net (useCryptoData.url coinId)).outcome = Except.error m ∧
          s'.error = some m ∧ s'.data = s.data))) ∧
    ((useChartData.fetchChartData.requested coinId timeRange).exec ⟨c, sent⟩ =
        (Except.ok (),
          ⟨{ chartData := c.chartData, loading := true, error := none },
           sent ++ [useChartData.url coinId timeRange]⟩)) ∧
    (∃ c' : ChartState,
      (useChartData.fetchChartData.settled result).exec ⟨c, sent⟩
        = (Except.ok (), ⟨c', sent⟩) ∧
      c'.loading = false ∧
      ((∃ v, result.outcome = Except.ok v ∧ c'.chartData = v ∧ c'.error = c.error) ∨
       (∃ m, result.outcome = Except.error m ∧ c'.error = some m ∧
          c'.chartData = c.chartData))) ∧
    (∃ c' : ChartState,
      (useChartData.fetchChartData coinId timeRange net).exec ⟨c, sent⟩ =
        (useChartData.fetchChartData.settled (net (useChartData.url coinId timeRange))).exec
          ((useChartData.fetchChartData.requested coinId timeRange).exec ⟨c, sent⟩).2 ∧
      (useChartData.fetchChartData coinId timeRange net).exec ⟨c, sent⟩
        = (Except.ok (), ⟨c', sent ++ [useChartData.url coinId timeRange]⟩) ∧
      c'.loading = false ∧
      ((∃ v, (net (useChartData.url coinId timeRange)).outcome = Except.ok v ∧
          c'.error = none ∧ c'.chartData = v) ∨
       (∃ m, (net (useChartData.url coinId timeRange)).outcome = Except.error m ∧
          c'.error = some m ∧ c'.chartData = c.chartData))) := by
  refine ⟨rfl, ?_, ?_, rfl, ?_, ?_⟩
  · refine ⟨_, fetchData_settled_exec result now s sent, ?_, ?_⟩
    · cases result.outcome <;> rfl
    · cases result.outcome with
      | ok v => exact Or.inl ⟨v, rfl, rfl, rfl⟩
      | error m =>
        refine Or.inr ⟨m, rfl, rfl, rfl, ?_⟩
        intro hm props hdata sel chart
        simp [App.render, hdata, coinData_eq_specRecord, errorTruthy, hm]
  · refine ⟨_, fetchData_exec_eq_phases coinId net now s sent,
      fetchData_exec coinId net now s sent, ?_, ?_⟩
    · cases (net (useCryptoData.url coinId)).outcome <;> rfl
    · cases (net (useCryptoData.url coinId)).outcome with
      | ok v => exact Or.inl ⟨v, rfl, rfl, rfl⟩
      | error m => exact Or.inr ⟨m, rfl, rfl, rfl⟩
  · refine ⟨_, fetchChartData_settled_exec result c sent, ?_, ?_⟩
    · cases result.outcome <;> rfl
    · cases result.outcome with
      | ok v => exact Or.inl ⟨v, rfl, rfl, rfl⟩
      | error m => exact Or.inr ⟨m, rfl, rfl, rfl⟩
  · refine ⟨_, fetchChartData_exec_eq_phases coinId timeRange net c sent,
      fetchChartData_exec coinId timeRange net c sent, ?_, ?_⟩
    · cases (net (useChartData.url coinId timeRange)).outcome <;> rfl
    · cases (net (useChartData.url coinId timeRange)).outcome with
      | ok v => exact Or.inl ⟨v, rfl, rfl, rfl⟩
      | error m => exact Or.inr ⟨m, rfl, rfl, rfl⟩

/-- Witness for C7 (amended): the network call of an asset fetch requested
from the initial state is rejected with `"Network error"`; the settled phase
stores that message and `App` then renders the alert with it. -/
theorem fetch_phases_contained_witness :
    ∃ s' : CryptoState,
      (useCryptoData.fetchData.settled (FetchResult.rejected "Network error") 1).exec
          ⟨{ useCryptoData.initial with loading := true }, []⟩
        = (Except.ok (), ⟨s', []⟩) ∧
      s'.loading = false ∧
      s'.error = some "Network error" ∧
      App.render "bitcoin" s' useChartData.initial
        = Except.ok (View.alert "Error loading data" "Network error") := by
  obtain ⟨s', hexec, hload, hcase⟩ :=
    (fetch_phases_contained (some "bitcoin") (some 365) (rejectingNet "Network error")
      (FetchResult.rejected "Network error") 1
      { useCryptoData.initial with loading := true } useChartData.initial []).2.1
  rcases hcase with ⟨v, hv, _⟩ | ⟨m, hm, herr, _, hrender⟩
  · exact absurd hv (by simp [FetchResult.outcome])
  · have hmsg : m = "Network error" := by
      simp [FetchResult.outcome] at hm
      exact hm.symm
    subst hmsg
    exact ⟨s', hexec, hload, herr, hrender (by decide) [] rfl "bitcoin" useChartData.initial⟩

/-! ## The component tree: which effects run -/

theorem render_of_showsDashboard (p : Page) (h : p.showsDashboard = true) :
    ∃ coin, coinData p.asset.hook.data = Except.ok coin ∧
      errorTruthy p.asset.hook.error = false := by
  unfold Page.showsDashboard Page.view App.render at h
  cases hc : coinData p.asset.hook.data with
  | error e => simp [hc, bind, Except.bind] at h
  | ok coin =>
    refine ⟨coin, rfl, ?_⟩
    cases he : errorTruthy p.asset.hook.error with
    | false => rfl
    | true => simp [hc, he, bind, Except.bind, pure, Except.pure] at h

theorem view_of_render (sel : String) (asset : CryptoState) (chart : ChartState)
    (coin : JSValue) (hc : coinData asset.data = Except.ok coin)
    (he : errorTruthy asset.error = false) :
    App.render sel asset chart = Except.ok (View.dashboard
      { selectedCoin := sel, loading := asset.loading, lastUpdated := asset.lastUpdated,
        coinData := coin, chartLoading := asset.loading || chart.loading,
        chartData := chart.chartData }) := by
  simp [App.render, hc, he, bind, Except.bind, pure, Except.pure]

theorem chart_effect_exec_of_present (id : String) (n : Nat) (net : String → FetchResult)
    (w : Run ChartState) (hid : id ≠ "") (hn : n ≠ 0) :
    (useChartData.effect (some id) (some n) net).exec w
      = (useChartData.fetchChartData (some id) (some n) net).exec w := by
  simp [useChartData.effect, notId, notRange, hid, hn]

theorem runEffects_timeRange (p : Page) (n : Nat) (net : String → FetchResult) (now : Nat)
    (hdash : p.showsDashboard = true) (hnew : n ≠ p.selectedTimeRange) :
    runEffects p (handleTimeRangeChange n p) net now =
      { handleTimeRangeChange n p with
        chart := ((useChartData.effect (some p.selectedCoinId) (some n) net).exec p.chart).2 } := by
  obtain ⟨coin, hc, he⟩ := render_of_showsDashboard p hdash
  have hview := view_of_render p.selectedCoinId p.asset.hook p.chart.hook coin hc he
  simp [runEffects, Page.view, handleTimeRangeChange, hview, Ne.symm hnew]

theorem showsDashboard_of_obj (p : Page) (props : List (String × JSValue))
    (hdata : p.asset.hook.data = obj props) (he : errorTruthy p.asset.hook.error = false) :
    p.showsDashboard = true := by
  have hc : coinData p.asset.hook.data = Except.ok (specRecord (obj props)) := by
    rw [hdata, coinData_eq_specRecord]
  simp [Page.showsDashboard, Page.view, view_of_render _ _ _ _ hc he]

theorem runEffects_coinChange (p : Page) (id : String) (net : String → FetchResult)
    (now : Nat) (hdash : p.showsDashboard = true) (hnew : id ≠ p.selectedCoinId) :
    runEffects p (handleCoinChange id p) net now =
      { handleCoinChange id p with
        asset := ((useCryptoData.effect (some id) net now).exec p.asset).2,
        chart := ((useChartData.effect (some id) (some p.selectedTimeRange) net).exec
          p.chart).2 } := by
  obtain ⟨coin, hc, he⟩ := render_of_showsDashboard p hdash
  have hview := view_of_render id p.asset.hook p.chart.hook coin hc he
  simp [runEffects, Page.view, handleCoinChange, hview, Ne.symm hnew]

theorem runEffects_manualRefresh (p : Page) (net : String → FetchResult) (now : Nat)
    (hdash : p.showsDashboard = true) :
    runEffects p (handleManualRefresh p) net now =
      { handleManualRefresh p with
        asset := ((useCryptoData.effect (some p.selectedCoinId) net now).exec p.asset).2 } := by
  obtain ⟨coin, hc, he⟩ := render_of_showsDashboard p hdash
  have hview := view_of_render p.selectedCoinId p.asset.hook p.chart.hook coin hc he
  simp [runEffects, Page.view, handleManualRefresh, hview]

theorem asset_effect_sent (id : String) (net : String → FetchResult) (now : Nat)
    (w : Run CryptoState) (hid : id ≠ "") :
    ((useCryptoData.effect (some id) net now).exec w).2.sent
      = w.sent ++ ["https://api.coingecko.com/api/v3/coins/" ++ id] := by
  obtain ⟨s, sent⟩ := w
  rw [effect_exec_of_id _ _ _ _ (by simp [notId, hid]), fetchData_exec]
  rfl

theorem chart_effect_sent (id : String) (n : Nat) (net : String → FetchResult)
    (w : Run ChartState) (hid : id ≠ "") (hn : n ≠ 0) :
    ((useChartData.effect (some id) (some n) net).exec w).2.sent
      = w.sent ++ ["https://api.coingecko.com/api/v3/coins/" ++ id ++
          "/market_chart?vs_currency=usd&days=" ++ toString n] := by
  obtain ⟨c, sent⟩ := w
  rw [chart_effect_exec_of_present id n net _ hid hn, fetchChartData_exec]
  rfl

theorem loadedPage_showsDashboard : loadedPage.showsDashboard = true :=
  showsDashboard_of_obj loadedPage _ rfl rfl

/-! ## The component tree: claims -/

/-- C11 (fetcher orthogonality).  On the dashboard, for every non-empty
identifier `id` and every change of the selected time range to a new value
`n` (a positive number of days, as all selectable ranges are), exactly one new
request is issued by the chart hook, to
`https://api.coingecko.com/api/v3/coins/{id}/market_chart?vs_currency=usd&days={n}`,
and the asset hook issues no request and keeps its fetch state. -/
theorem timeRange_change_fetches_chart_only (p : Page) (n : Nat)
    (net : String → FetchResult) (now : Nat)
    (hdash : p.showsDashboard = true) (hid : p.selectedCoinId ≠ "") (hn : n ≠ 0)
    (hnew : n ≠ p.selectedTimeRange) :
    (runEffects p (handleTimeRangeChange n p) net now).selectedTimeRange = n ∧
    (runEffects p (handleTimeRangeChange n p) net now).chart.sent
      = p.chart.sent ++ ["https://api.coingecko.com/api/v3/coins/" ++ p.selectedCoinId ++
          "/market_chart?vs_currency=usd&days=" ++ toString n] ∧
    (runEffects p (handleTimeRangeChange n p) net now).asset.sent = p.asset.sent ∧
    (runEffects p (handleTimeRangeChange n p) net now).asset.hook = p.asset.hook := by
  rw [runEffects_timeRange p n net now hdash hnew]
  exact ⟨rfl, chart_effect_sent p.selectedCoinId n net p.chart hid hn, rfl, rfl⟩

/-- Witness for C11: on the loaded `bitcoin` page the range goes from 365 to
1. -/
theorem timeRange_change_fetches_chart_only_witness :
    (runEffects loadedPage (handleTimeRangeChange 1 loadedPage) marketNet 2).selectedTimeRange
        = 1 ∧
    (runEffects loadedPage (handleTimeRangeChange 1 loadedPage) marketNet 2).chart.sent
      = loadedPage.chart.sent ++ ["https://api.coingecko.com/api/v3/coins/" ++
          loadedPage.selectedCoinId ++ "/market_chart?vs_currency=usd&days=" ++ toString 1] ∧
    (runEffects loadedPage (handleTimeRangeChange 1 loadedPage) marketNet 2).asset.sent
      = loadedPage.asset.sent ∧
    (runEffects loadedPage (handleTimeRangeChange 1 loadedPage) marketNet 2).asset.hook
      = loadedPage.asset.hook :=
  timeRange_change_fetches_chart_only loadedPage 1 marketNet 2 loadedPage_showsDashboard
    (by decide) (by decide) (by decide)

/-- C12 (asset fetch triggers).  On the dashboard, every change of the
selected identifier to a new non-empty value `id` makes `useCryptoData` issue
exactly one new request, to `https://api.coingecko.com/api/v3/coins/{id}`; and
every manual refresh, which increments the refresh counter and leaves the
(non-empty) identifier unchanged, makes it issue exactly one new request to
the URL of that identifier. -/
theorem coin_change_or_refresh_fetches_asset (p : Page) (id : String)
    (net : String → FetchResult) (now : Nat) (hdash : p.showsDashboard = true) :
    (id ≠ "" → id ≠ p.selectedCoinId →
      (runEffects p (handleCoinChange id p) net now).selectedCoinId = id ∧
      (runEffects p (handleCoinChange id p) net now).asset.sent
        = p.asset.sent ++ ["https://api.coingecko.com/api/v3/coins/" ++ id]) ∧
    (p.selectedCoinId ≠ "" →
      (runEffects p (handleManualRefresh p) net now).manualRefreshTrigger
        = p.manualRefreshTrigger + 1 ∧
      (runEffects p (handleManualRefresh p) net now).selectedCoinId = p.selectedCoinId ∧
      (runEffects p (handleManualRefresh p) net now).asset.sent
        = p.asset.sent ++ ["https://api.coingecko.com/api/v3/coins/" ++ p.selectedCoinId]) := by
  constructor
  · intro hid hnew
    rw [runEffects_coinChange p id net now hdash hnew]
    exact ⟨rfl, asset_effect_sent id net now p.asset hid⟩
  · intro hid
    rw [runEffects_manualRefresh p net now hdash]
    exact ⟨rfl, rfl, asset_effect_sent p.selectedCoinId net now p.asset hid⟩

/-- Witness for C12: on the loaded `bitcoin` page the identifier is changed
to `ethereum`. -/
theorem coin_change_or_refresh_fetches_asset_witness :
    (runEffects loadedPage (handleCoinChange "ethereum" loadedPage) marketNet 2).selectedCoinId
        = "ethereum" ∧
    (runEffects loadedPage (handleCoinChange "ethereum" loadedPage) marketNet 2).asset.sent
      = loadedPage.asset.sent ++ ["https://api.coingecko.com/api/v3/coins/" ++ "ethereum"] :=
  (coin_change_or_refresh_fetches_asset loadedPage "ethereum" marketNet 2
    loadedPage_showsDashboard).1 (by decide) (by decide)

theorem alert_of_failed (sel : String) (asset : CryptoState) (chart : ChartState)
    (m : String) (props : List (String × JSValue))
    (herr : asset.error = some m) (hm : m ≠ "") (hdata : asset.data = obj props) :
    App.render sel asset chart = Except.ok (View.alert "Error loading data" m) := by
  simp [App.render, hdata, coinData_eq_specRecord, herr, errorTruthy, hm, bind, Except.bind,
    pure, Except.pure]

/-- C15, as stated, fails: once the asset fetch for `bitcoin` has failed with
status 404, `App` returns only the alert (heading `Error loading data`, the
message verbatim).  That view renders no control: neither the refresh button
nor the coin selector is offered, and a refresh click or a coin selection
leaves the page as it is, so no new fetch is requested. -/
theorem failed_view_offers_no_retry :
    failedPage.asset.hook.error = some "HTTP error! status: 404" ∧
    failedPage.view = Except.ok (View.alert "Error loading data" "HTTP error! status: 404") ∧
    (View.alert "Error loading data" "HTTP error! status: 404").controls = [] ∧
    failedPage.offers Control.refreshButton = false ∧
    failedPage.offers Control.coinSelect = false ∧
    failedPage.click UserEvent.clickRefresh marketNet 2 = failedPage ∧
    failedPage.click (UserEvent.selectCoin "ethereum") marketNet 2 = failedPage := by
  have hview : failedPage.view
      = Except.ok (View.alert "Error loading data" "HTTP error! status: 404") :=
    alert_of_failed _ _ _ "HTTP error! status: 404" [] rfl (by decide) rfl
  refine ⟨rfl, hview, rfl, ?_, ?_, ?_, ?_⟩
  · simp [Page.offers, hview, View.controls]
  · simp [Page.offers, hview, View.controls]
  · simp [Page.click, Page.offers, hview, View.controls]
  · simp [Page.click, Page.offers, hview, View.controls]

/-- C15 (amended).  For every page whose asset fetch state is Failed with a
non-empty message `m` (the stored payload being an object), the rendered
output is the alert `Error loading data` showing `m` verbatim, and nothing
else: no control is offered, in particular neither the refresh button nor the
coin selector, and every user event leaves the page unchanged, so no new fetch
can be requested from the UI.  At the hook level a requested fetch still moves
Failed to Loading with the error cleared. -/
theorem failed_view_is_alert_without_controls (p : Page) (m : String)
    (props : List (String × JSValue))
    (herr : p.asset.hook.error = some m) (hm : m ≠ "")
    (hdata : p.asset.hook.data = obj props) :
    p.view = Except.ok (View.alert "Error loading data" m) ∧
    (View.alert "Error loading data" m).controls = [] ∧
    (∀ c : Control, p.offers c = false) ∧
    (∀ (ev : UserEvent) (net : String → FetchResult) (now : Nat), p.click ev net now = p) ∧
    (∀ coinId : Option String,
      (onEvent p.asset.hook (FetchEvent.requested coinId)).loading = true ∧
      (onEvent p.asset.hook (FetchEvent.requested coinId)).error = none) := by
  have hview : p.view = Except.ok (View.alert "Error loading data" m) :=
    alert_of_failed _ _ _ m props herr hm hdata
  refine ⟨hview, rfl, ?_, ?_, ?_⟩
  · intro c
    simp [Page.offers, hview, View.controls]
  · intro ev net now
    simp [Page.click, Page.offers, hview, View.controls]
  · intro coinId
    exact ⟨rfl, rfl⟩

/-- Witness for C15 (amended): the page on which the fetch for `bitcoin`
failed with status 404. -/
theorem failed_view_is_alert_without_controls_witness :
    failedPage.view
        = Except.ok (View.alert "Error loading data" "HTTP error! status: 404") ∧
    failedPage.click UserEvent.clickRefresh marketNet 2 = failedPage :=
  ⟨(failed_view_is_alert_without_controls failedPage "HTTP error! status: 404" [] rfl
      (by decide) rfl).1,
    (failed_view_is_alert_without_controls failedPage "HTTP error! status: 404" [] rfl
      (by decide) rfl).2.2.2.1 UserEvent.clickRefresh marketNet 2⟩

/-! ## `refetch` against `fetchData` -/

theorem refetch_exec (coinId : Option String) (net : String → FetchResult)
    (s : CryptoState) (sent : List String) (hid : notId coinId = false) :
    (useCryptoData.refetch coinId net).exec ⟨s, sent⟩ =
      (Except.ok (),
        ⟨match (net (useCryptoData.url coinId)).outcome with
          | Except.ok v =>
              { data := v, loading := false, error := none, lastUpdated := s.lastUpdated }
          | Except.error m =>
              { data := s.data, loading := false, error := some m,
                lastUpdated := s.lastUpdated },
         sent ++ [useCryptoData.url coinId]⟩) := by
  cases hnet : net (useCryptoData.url coinId) with
  | rejected m =>
    simp [useCryptoData.refetch, hid, Async.exec, fetch, hnet, FetchResult.outcome]
    rfl
  | resolved r =>
    cases hok : r.ok
    · simp [useCryptoData.refetch, hid, Async.exec, fetch, hnet, FetchResult.outcome, hok]
      rfl
    · cases hb : r.body with
      | error m =>
        simp [useCryptoData.refetch, hid, Async.exec, fetch, hnet, FetchResult.outcome, hok,
          hb, Response.json]
        rfl
      | ok v =>
        simp [useCryptoData.refetch, hid, Async.exec, fetch, hnet, FetchResult.outcome, hok,
          hb, Response.json]
        rfl

/-- C16 at its failing input.  From the initial state, for `bitcoin` and a
`200 OK` response carrying the example payload, the effect's `fetchData`
(completing at time 1) leaves `lastUpdated = 1` while `refetch` leaves
`lastUpdated = null`; the two agree on `data`, `loading` and `error`. -/
theorem refetch_leaves_lastUpdated_stale :
    ((useCryptoData.fetchData (some "bitcoin") marketNet 1).exec
        ⟨useCryptoData.initial, []⟩).2.hook.lastUpdated = some 1 ∧
    ((useCryptoData.refetch (some "bitcoin") marketNet).exec
        ⟨useCryptoData.initial, []⟩).2.hook.lastUpdated = none ∧
    ((useCryptoData.refetch (some "bitcoin") marketNet).exec
        ⟨useCryptoData.initial, []⟩).2.hook.data
      = ((useCryptoData.fetchData (some "bitcoin") marketNet 1).exec
        ⟨useCryptoData.initial, []⟩).2.hook.data ∧
    ((useCryptoData.refetch (some "bitcoin") marketNet).exec
        ⟨useCryptoData.initial, []⟩).2.hook.loading
      = ((useCryptoData.fetchData (some "bitcoin") marketNet 1).exec
        ⟨useCryptoData.initial, []⟩).2.hook.loading ∧
    ((useCryptoData.refetch (some "bitcoin") marketNet).exec
        ⟨useCryptoData.initial, []⟩).2.hook.error
      = ((useCryptoData.fetchData (some "bitcoin") marketNet 1).exec
        ⟨useCryptoData.initial, []⟩).2.hook.error := by
  rw [refetch_exec _ _ _ _ (by decide), fetchData_exec]
  exact ⟨rfl, rfl, rfl, rfl, rfl⟩

/-! ## Number formatting: lemmas and claims -/

theorem digitChar_isDigit (n : Nat) : (digitChar n).isDigit = true := by
  have h : n % 10 < 10 := Nat.mod_lt _ (by decide)
  unfold digitChar
  generalize n % 10 = k at h
  interval_cases k <;> decide

theorem lastDigits_length (n count : Nat) : (lastDigits n count).length = count := by
  induction count generalizing n with
  | zero => rfl
  | succ c ih => simp [lastDigits, ih]

theorem lastDigits_isDigit (n count : Nat) :
    ∀ c ∈ lastDigits n count, c.isDigit = true := by
  induction count generalizing n with
  | zero => simp [lastDigits]
  | succ k ih =>
    intro c hc
    simp only [lastDigits, List.mem_append, List.mem_singleton] at hc
    rcases hc with hc | rfl
    · exact ih _ c hc
    · exact digitChar_isDigit n

theorem roundScaled_near (q : ℚ) (digits : Nat) :
    |(roundScaled q digits : ℚ) - |q| * 10 ^ digits| ≤ 1 / 2 := by
  have hx : (0 : ℚ) ≤ |q| * 10 ^ digits := by positivity
  have hfloor : (0 : ℤ) ≤ ⌊|q| * 10 ^ digits + 1 / 2⌋ := Int.floor_nonneg.2 (by linarith)
  have hcast : ((roundScaled q digits : ℕ) : ℚ) = (⌊|q| * 10 ^ digits + 1 / 2⌋ : ℚ) := by
    unfold roundScaled
    exact_mod_cast congrArg (fun z : ℤ => (z : ℚ)) (Int.toNat_of_nonneg hfloor)
  rw [hcast, abs_le]
  have h1 := Int.floor_le (|q| * 10 ^ digits + 1 / 2)
  have h2 := Int.lt_floor_add_one (|q| * 10 ^ digits + 1 / 2)
  constructor <;> linarith

theorem roundScaled_eq (q : ℚ) (digits r : Nat) (hq : 0 ≤ q)
    (h : ⌊q * 10 ^ digits + 1 / 2⌋ = (r : ℤ)) : roundScaled q digits = r := by
  unfold roundScaled
  rw [abs_of_nonneg hq, h]
  rfl

theorem digitChar_val (n : Nat) : (digitChar n).toNat - 48 = n % 10 := by
  have h : n % 10 < 10 := Nat.mod_lt _ (by decide)
  have hmod : n % 10 % 10 = n % 10 := Nat.mod_mod _ _
  unfold digitChar
  generalize n % 10 = k at h hmod
  interval_cases k <;> rfl

theorem digitChar_ne_comma (n : Nat) : digitChar n ≠ ',' := by
  intro h
  have hd := digitChar_isDigit n
  rw [h] at hd
  exact absurd hd (by decide)

theorem ne_comma_of_isDigit (c : Char) (h : c.isDigit = true) : c ≠ ',' := by
  intro hc
  rw [hc] at h
  exact absurd h (by decide)

theorem readDecimal_append (l : List Char) (c : Char) :
    readDecimal (l ++ [c]) = 10 * readDecimal l + (c.toNat - 48) := by
  simp [readDecimal, List.foldl_append]

theorem decimalRev_isDigit (fuel n : Nat) : ∀ c ∈ decimalRev fuel n, c.isDigit = true := by
  induction fuel generalizing n with
  | zero => simp [decimalRev]
  | succ f ih =>
    intro c hc
    unfold decimalRev at hc
    split at hc
    · rw [List.mem_singleton] at hc
      rw [hc]
      exact digitChar_isDigit n
    · rcases List.mem_cons.1 hc with rfl | hc
      · exact digitChar_isDigit n
      · exact ih _ c hc

theorem decimalRev_ne_nil (fuel n : Nat) : decimalRev (fuel + 1) n ≠ [] := by
  unfold decimalRev
  split <;> simp

theorem readDecimal_decimalRev (fuel n : Nat) (h : n < fuel) :
    readDecimal (decimalRev fuel n).reverse = n := by
  induction fuel generalizing n with
  | zero => omega
  | succ f ih =>
    unfold decimalRev
    split
    · rename_i h10
      have hv := digitChar_val n
      simp only [List.reverse_singleton, readDecimal, List.foldl_cons, List.foldl_nil]
      omega
    · rename_i h10
      rw [List.reverse_cons, readDecimal_append, ih (n / 10) (by omega), digitChar_val]
      omega

theorem decimalRev_leading (fuel n : Nat) (h : n < fuel)
    (hlast : (decimalRev fuel n).getLast? = some '0') : decimalRev fuel n = ['0'] := by
  induction fuel generalizing n with
  | zero => omega
  | succ f ih =>
    unfold decimalRev at hlast ⊢
    split at hlast
    · rename_i h10
      simp only [h10, if_true]
      simpa using hlast
    · rename_i h10
      exfalso
      obtain ⟨f', rfl⟩ : ∃ f', f = f' + 1 := ⟨f - 1, by omega⟩
      have hne := decimalRev_ne_nil f' (n / 10)
      obtain ⟨x, xs, hx⟩ := List.exists_cons_of_ne_nil hne
      rw [hx, List.getLast?_cons_cons, ← hx] at hlast
      have hzero := ih (n / 10) (by omega) hlast
      have hread := readDecimal_decimalRev (f' + 1) (n / 10) (by omega)
      rw [hzero] at hread
      simp [readDecimal] at hread
      omega

theorem groupReversed_three (a b c : Char) : groupReversed [a, b, c] = [a, b, c] := rfl

theorem groupReversed_more (a b c head : Char) (tail : List Char) :
    groupReversed (a :: b :: c :: head :: tail)
      = a :: b :: c :: ',' :: groupReversed (head :: tail) := rfl

theorem groupReversed_short (short : List Char)
    (h : ∀ (a b c : Char) (rest : List Char), short = a :: b :: c :: rest → False) :
    groupReversed short = short := by
  match short, h with
  | [], _ => rfl
  | [_], _ => rfl
  | [_, _], _ => rfl
  | a :: b :: c :: rest, h => exact absurd rfl (fun e => h a b c rest e)

theorem groupReversed_mem (ds : List Char) :
    ∀ c ∈ groupReversed ds, c ∈ ds ∨ c = ',' := by
  induction ds using groupReversed.induct with
  | case1 a b c =>
    intro x hx
    exact Or.inl hx
  | case2 a b c head tail ih =>
    intro x hx
    rw [groupReversed_more] at hx
    simp only [List.mem_cons] at hx ⊢
    rcases hx with h | h | h | h | h
    · exact Or.inl (Or.inl h)
    · exact Or.inl (Or.inr (Or.inl h))
    · exact Or.inl (Or.inr (Or.inr (Or.inl h)))
    · exact Or.inr h
    · rcases ih x h with h' | h'
      · exact Or.inl (Or.inr (Or.inr (Or.inr (List.mem_cons.1 h'))))
      · exact Or.inr h'
  | case3 short hshort =>
    intro x hx
    rw [groupReversed_short short hshort] at hx
    exact Or.inl hx

theorem groupReversed_filter (ds : List Char) (h : ∀ c ∈ ds, c ≠ ',') :
    (groupReversed ds).filter (fun c => decide (c ≠ ',')) = ds := by
  induction ds using groupReversed.induct with
  | case1 a b c =>
    rw [groupReversed_three]
    exact List.filter_eq_self.2 (fun x hx => by simpa using h x hx)
  | case2 a b c head tail ih =>
    have ha := h a (by simp)
    have hb := h b (by simp)
    have hc := h c (by simp)
    have ht := ih (fun x hx =>
      h x (List.mem_cons_of_mem _ (List.mem_cons_of_mem _ (List.mem_cons_of_mem _ hx))))
    rw [groupReversed_more, List.filter_cons_of_pos (by simpa using ha),
      List.filter_cons_of_pos (by simpa using hb), List.filter_cons_of_pos (by simpa using hc),
      List.filter_cons_of_neg (by simp), ht]
  | case3 short hshort =>
    rw [groupReversed_short short hshort]
    exact List.filter_eq_self.2 (fun x hx => by simpa using h x hx)

theorem groupReversed_getLast (ds : List Char) :
    (groupReversed ds).getLast? = ds.getLast? := by
  induction ds using groupReversed.induct with
  | case1 a b c => rfl
  | case2 a b c head tail ih =>
    rw [groupReversed_more]
    obtain ⟨x, xs, hx⟩ : ∃ x xs, groupReversed (head :: tail) = x :: xs := by
      cases hg : groupReversed (head :: tail) with
      | nil =>
        rw [hg, List.getLast?_cons] at ih
        cases ih
      | cons x xs => exact ⟨x, xs, rfl⟩
    rw [hx] at ih ⊢
    simp only [List.getLast?_cons_cons]
    exact ih
  | case3 short hshort => rw [groupReversed_short short hshort]

theorem groupReversed_commas (ds : List Char) (h : ∀ c ∈ ds, c ≠ ',') :
    ∀ i, i < (groupReversed ds).length →
      ((groupReversed ds).getD i '0' = ',' ↔ i % 4 = 3) := by
  induction ds using groupReversed.induct with
  | case1 a b c =>
    intro i hi
    have ha := h a (by simp)
    have hb := h b (by simp)
    have hc := h c (by simp)
    rw [groupReversed_three] at hi ⊢
    simp only [List.length_cons, List.length_nil] at hi
    rcases i with _ | _ | _ | i
    · simp [ha]
    · simp [hb]
    · simp [hc]
    · omega
  | case2 a b c head tail ih =>
    intro i hi
    have ha := h a (by simp)
    have hb := h b (by simp)
    have hc := h c (by simp)
    have ht := ih (fun x hx =>
      h x (List.mem_cons_of_mem _ (List.mem_cons_of_mem _ (List.mem_cons_of_mem _ hx))))
    rw [groupReversed_more] at hi ⊢
    simp only [List.length_cons] at hi
    rcases i with _ | _ | _ | _ | j
    · simp [ha]
    · simp [hb]
    · simp [hc]
    · simp
    · have hj := ht j (by omega)
      simp only [List.getD_cons_succ]
      rw [hj]
      omega
  | case3 short hshort =>
    intro i hi
    rw [groupReversed_short short hshort] at hi ⊢
    match short, hshort, h, hi with
    | [], _, _, hi => simp at hi
    | [a], _, h, hi =>
      have ha := h a (by simp)
      simp only [List.length_cons, List.length_nil] at hi
      rcases i with _ | i
      · simp [ha]
      · omega
    | [a, b], _, h, hi =>
      have ha := h a (by simp)
      have hb := h b (by simp)
      simp only [List.length_cons, List.length_nil] at hi
      rcases i with _ | _ | i
      · simp [ha]
      · simp [hb]
      · omega
    | a :: b :: c :: rest, hs, _, _ => exact absurd rfl (fun e => hs a b c rest e)

theorem groupThousands_data (n : Nat) :
    (groupThousands n).data = (groupReversed (decimalRev (n + 1) n)).reverse := rfl

theorem groupThousands_spec (n : Nat) :
    (groupThousands n).data ≠ [] ∧
    (∀ c ∈ (groupThousands n).data, c.isDigit = true ∨ c = ',') ∧
    (∀ i, i < (groupThousands n).data.length →
      ((groupThousands n).data.reverse.getD i '0' = ',' ↔ i % 4 = 3)) ∧
    (groupThousands n).data.head? ≠ some ',' ∧
    ((groupThousands n).data.head? = some '0' → (groupThousands n).data = ['0']) ∧
    readDecimal ((groupThousands n).data.filter fun c => decide (c ≠ ',')) = n := by
  have hdig := decimalRev_isDigit (n + 1) n
  have hnc : ∀ c ∈ decimalRev (n + 1) n, c ≠ ',' :=
    fun c hc => ne_comma_of_isDigit c (hdig c hc)
  have hne := decimalRev_ne_nil n n
  obtain ⟨x, hx⟩ : ∃ x, (decimalRev (n + 1) n).getLast? = some x := by
    cases hl : (decimalRev (n + 1) n).getLast? with
    | none => exact absurd (List.getLast?_eq_none_iff.1 hl) hne
    | some x => exact ⟨x, rfl⟩
  have hxmem : x ∈ decimalRev (n + 1) n := List.mem_of_getLast?_eq_some hx
  have hlast := groupReversed_getLast (decimalRev (n + 1) n)
  rw [groupThousands_data]
  refine ⟨?_, ?_, ?_, ?_, ?_, ?_⟩
  · intro h
    rw [List.reverse_eq_nil_iff] at h
    rw [h, hx] at hlast
    cases hlast
  · intro c hc
    rcases groupReversed_mem _ c (List.mem_reverse.1 hc) with h | h
    · exact Or.inl (hdig c h)
    · exact Or.inr h
  · intro i hi
    rw [List.reverse_reverse]
    rw [List.length_reverse] at hi
    exact groupReversed_commas _ hnc i hi
  · rw [List.head?_reverse, hlast, hx]
    intro h
    exact hnc x hxmem (Option.some.inj h)
  · intro h
    rw [List.head?_reverse, hlast] at h
    have hz := decimalRev_leading (n + 1) n (by omega) h
    rw [hz]
    rfl
  · rw [List.filter_reverse, groupReversed_filter _ hnc]
    exact readDecimal_decimalRev (n + 1) n (by omega)

theorem lastDigits_two (n : Nat) : lastDigits n 2 = [digitChar (n / 10), digitChar n] := rfl

theorem readDecimal_lastDigits_two (n : Nat) : readDecimal (lastDigits n 2) = n % 100 := by
  have h1 := digitChar_val (n / 10)
  have h2 := digitChar_val n
  simp only [lastDigits_two, readDecimal, List.foldl_cons, List.foldl_nil]
  omega

theorem roundScaled_bounds (q : ℚ) (digits : Nat) :
    (roundScaled q digits : ℚ) ≤ |q| * 10 ^ digits + 1 / 2 ∧
      |q| * 10 ^ digits + 1 / 2 < (roundScaled q digits : ℚ) + 1 := by
  have hx : (0 : ℚ) ≤ |q| * 10 ^ digits := by positivity
  have hfloor : (0 : ℤ) ≤ ⌊|q| * 10 ^ digits + 1 / 2⌋ := Int.floor_nonneg.2 (by linarith)
  have hcast : ((roundScaled q digits : ℕ) : ℚ) = (⌊|q| * 10 ^ digits + 1 / 2⌋ : ℚ) := by
    unfold roundScaled
    exact_mod_cast congrArg (fun z : ℤ => (z : ℚ)) (Int.toNat_of_nonneg hfloor)
  rw [hcast]
  exact ⟨Int.floor_le _, Int.lt_floor_add_one _⟩

theorem toLocaleString_two_of_pos (shortest : ℚ → ℚ) (p : ℚ) (hp : 0 < p) :
    (toLocaleString shortest (JSNum.fin p) 2).data =
      (groupThousands (roundScaled (shortest p) 2 / 100)).data ++
        '.' :: lastDigits (roundScaled (shortest p) 2) 2 := by
  simp [toLocaleString, not_lt.2 (le_of_lt hp), String.data_append]

theorem toLocaleString_fifty_thousand (shortest : ℚ → ℚ) (h : shortest 50000 = 50000) :
    toLocaleString shortest (JSNum.fin 50000) 2 = "50,000.00" := by
  have hr : roundScaled 50000 2 = 5000000 :=
    roundScaled_eq _ _ 5000000 (by norm_num) (by norm_num)
  have hneg : ¬ ((50000 : ℚ) < 0) := by norm_num
  simp only [toLocaleString, h, hr, hneg, if_false]
  decide

/-- C13 (price display).  For every successfully loaded payload object whose
`market_data.current_price.usd` is a positive number `p`, `App` renders the
dashboard and its current-price element is the text `$` followed by
`formatNumber(p)`.  That text is `p` in en-US notation with two fraction
digits: with `cents` the number of hundredths nearest to the decimal that the
built-in starts from (a tie going up), it is the integer part `cents / 100`
written in decimal digits with a comma before every group of three and no
leading zero, a point, and exactly the two digits of `cents % 100`.  For
`p = 50000`, whose decimal is 50000, the text is `50,000.00`. -/
theorem price_display (shortest : ℚ → ℚ) (sel : String) (asset : CryptoState)
    (chart : ChartState) (props : List (String × JSValue)) (p : ℚ)
    (hdata : asset.data = obj props) (hloading : asset.loading = false)
    (herror : asset.error = none)
    (hprice : valueAt (obj props) ["market_data", "current_price", "usd"]
      = num (JSNum.fin p))
    (hp : 0 < p) :
    ∃ (d : Dashboard) (text : String) (cents : Nat),
      App.render sel asset chart = Except.ok (View.dashboard d) ∧
      CardSection.formatNumber shortest (num (JSNum.fin p)) 2 = some text ∧
      d.price shortest = some (CardSection.PriceView.text ("$" ++ text)) ∧
      (cents : ℚ) ≤ |shortest p| * 100 + 1 / 2 ∧
      |shortest p| * 100 + 1 / 2 < (cents : ℚ) + 1 ∧
      IsEnUSAmount cents text ∧
      (p = 50000 → shortest 50000 = 50000 → text = "50,000.00") := by
  have hne : p ≠ 0 := ne_of_gt hp
  have hc : coinData asset.data = Except.ok (specRecord (obj props)) := by
    rw [hdata, coinData_eq_specRecord]
  have hrender := view_of_render sel asset chart _ hc (by rw [herror]; rfl)
  have hcur : (specRecord (obj props)).propOf "currentPrice" = num (JSNum.fin p) := by
    rw [propOf_specRecord _ "currentPrice" ["market_data", "current_price", "usd"] zero
      (by simp [fieldTable]), hprice]
    simp [JSValue.or, truthy, hne]
  have hfmt : CardSection.formatNumber shortest (num (JSNum.fin p)) 2
      = some (toLocaleString shortest (JSNum.fin p) 2) := by
    simp [CardSection.formatNumber, truthy, isZero, hne]
  have hbounds := roundScaled_bounds (shortest p) 2
  have hgroup := groupThousands_spec (roundScaled (shortest p) 2 / 100)
  refine ⟨_, toLocaleString shortest (JSNum.fin p) 2, roundScaled (shortest p) 2,
    hrender, hfmt, ?_, ?_, ?_, ?_, ?_⟩
  · simp [Dashboard.price, CardSection.priceView, hloading, hcur, hfmt]
  · have h := hbounds.1
    norm_num at h ⊢
    exact h
  · have h := hbounds.2
    norm_num at h ⊢
    exact h
  · exact ⟨(groupThousands (roundScaled (shortest p) 2 / 100)).data,
      lastDigits (roundScaled (shortest p) 2) 2,
      toLocaleString_two_of_pos shortest p hp, lastDigits_length _ _,
      lastDigits_isDigit _ _, readDecimal_lastDigits_two _, hgroup.1, hgroup.2.1,
      hgroup.2.2.1, hgroup.2.2.2.1, hgroup.2.2.2.2.1, hgroup.2.2.2.2.2⟩
  · intro hp50 hs
    subst hp50
    exact toLocaleString_fifty_thousand shortest hs

/-- Witness for C13: the payload of the test, with a current price of 50000
(whose shortest decimal is 50000 itself), displays `$50,000.00`. -/
theorem price_display_witness :
    ∃ d : Dashboard,
      App.render "bitcoin" bitcoinLoaded useChartData.initial = Except.ok (View.dashboard d) ∧
      d.price (fun q => q) = some (CardSection.PriceView.text "$50,000.00") := by
  obtain ⟨d, text, cents, hrender, _, hprice, _, _, _, hexample⟩ :=
    price_display (fun q => q) "bitcoin" bitcoinLoaded useChartData.initial _ 50000
      rfl rfl rfl rfl (by norm_num)
  refine ⟨d, hrender, ?_⟩
  rw [hprice, hexample rfl rfl]
  rfl

/-- C14 at its failing inputs.  For the finite non-zero number `5e15` the
function returns `5.0undefined`: the tier is 5, past the end of `units`, and
the missing element is printed as `undefined`.  Likewise `0.0005`, whose
magnitude is below 1000, does not come back as itself: the tier is -1 and the
result is `0.5undefined`.  Within the array the suffixes are as described:
`1500` gives `1.5K` and `2.5e12` gives `2.5T`. -/
theorem formatLargeNumber_undefined_suffix (toStr : JSNum → String) :
    formatters.formatLargeNumber toStr (JSNum.fin 5000000000000000) = "5.0undefined" ∧
    formatters.formatLargeNumber toStr (JSNum.fin 0.0005) = "0.5undefined" ∧
    formatters.formatLargeNumber toStr (JSNum.fin 1500) = "1.5K" ∧
    formatters.formatLargeNumber toStr (JSNum.fin 2500000000000) = "2.5T" := by
  refine ⟨?_, ?_, ?_, ?_⟩
  · have ht : formatters.tierOf 5000000000000000 = 5 := by
      norm_num [formatters.tierOf]
      decide
    have hs : (5000000000000000 : ℚ) / 10 ^ ((5 : ℤ) * 3) = 5 := by norm_num
    have hr : roundScaled 5 1 = 50 :=
      roundScaled_eq _ _ 50 (by norm_num) (by norm_num)
    have hsmall : ¬ ((10 : ℚ) ^ 21 ≤ |5|) := by norm_num
    have hpos : ¬ ((5 : ℚ) < 0) := by norm_num
    have hne : ¬ ((5000000000000000 : ℚ) = 0) := by norm_num
    have h5 : ¬ ((5 : ℤ) = 0) := by decide
    simp only [formatters.formatLargeNumber, ht, hs, toFixed, hr, hsmall, hpos, hne, h5,
      if_false]
    decide
  · have habs : |(0.0005 : ℚ)| = 1 / 2000 := by
      rw [abs_of_pos (by norm_num)]
      norm_num
    have hlt : ¬ (1 : ℚ) ≤ 1 / 2000 := by norm_num
    have hfl : ⌊(1 : ℚ) / (1 / 2000)⌋ = 2000 := by norm_num
    have ht : formatters.tierOf 0.0005 = -1 := by
      simp only [formatters.tierOf, habs, hlt, if_false, hfl]
      decide
    have hs : (0.0005 : ℚ) / 10 ^ ((-1 : ℤ) * 3) = 1 / 2 := by norm_num
    have hr : roundScaled (1 / 2) 1 = 5 :=
      roundScaled_eq _ _ 5 (by norm_num) (by norm_num)
    have hsmall : ¬ ((10 : ℚ) ^ 21 ≤ |1 / 2|) := by
      rw [abs_of_pos (by norm_num)]
      norm_num
    have hpos : ¬ ((1 / 2 : ℚ) < 0) := by norm_num
    have hne : ¬ ((0.0005 : ℚ) = 0) := by norm_num
    have h1 : ¬ ((-1 : ℤ) = 0) := by decide
    simp only [formatters.formatLargeNumber, ht, hs, toFixed, hr, hsmall, hpos, hne, h1,
      if_false]
    decide
  · have ht : formatters.tierOf 1500 = 1 := by
      norm_num [formatters.tierOf]
      decide
    have hs : (1500 : ℚ) / 10 ^ ((1 : ℤ) * 3) = 3 / 2 := by norm_num
    have hr : roundScaled (3 / 2) 1 = 15 :=
      roundScaled_eq _ _ 15 (by norm_num) (by norm_num)
    have hsmall : ¬ ((10 : ℚ) ^ 21 ≤ |3 / 2|) := by
      rw [abs_of_pos (by norm_num)]
      norm_num
    have hpos : ¬ ((3 / 2 : ℚ) < 0) := by norm_num
    have hne : ¬ ((1500 : ℚ) = 0) := by norm_num
    have h1 : ¬ ((1 : ℤ) = 0) := by decide
    simp only [formatters.formatLargeNumber, ht, hs, toFixed, hr, hsmall, hpos, hne, h1,
      if_false]
    decide
  · have ht : formatters.tierOf 2500000000000 = 4 := by
      norm_num [formatters.tierOf]
      decide
    have hs : (2500000000000 : ℚ) / 10 ^ ((4 : ℤ) * 3) = 5 / 2 := by norm_num
    have hr : roundScaled (5 / 2) 1 = 25 :=
      roundScaled_eq _ _ 25 (by norm_num) (by norm_num)
    have hsmall : ¬ ((10 : ℚ) ^ 21 ≤ |5 / 2|) := by
      rw [abs_of_pos (by norm_num)]
      norm_num
    have hpos : ¬ ((5 / 2 : ℚ) < 0) := by norm_num
    have hne : ¬ ((2500000000000 : ℚ) = 0) := by norm_num
    have h4 : ¬ ((4 : ℤ) = 0) := by decide
    simp only [formatters.formatLargeNumber, ht, hs, toFixed, hr, hsmall, hpos, hne, h4,
      if_false]
    decide

end CryptoReact
